import Mathlib

/-!
Verification of the JobMatchAI pipeline (JobApplyAI.py, llm_cover_letter.py).

The Python code is embedded shallowly: Python strings become `List Char`,
environment lookups become association lists, `json.loads` becomes an
executable JSON parser over an exact value type, the two dispatcher paths
(`_call_api_service`, `_call_local_service`) become total functions over an
explicit outcome type for the network call, and exceptions become `Except`
values that the dispatcher boundary (`_call_tier_llm`) converts to
`(None, False)` exactly where the Python `try/except` does.
-/

namespace JobMatch

set_option maxRecDepth 16384

/-- Characters of a Python string, modelled as a list of `Char`. -/
abbrev Chars := List Char

/-- The characters of a Lean string literal. -/
def strL (s : String) : Chars := s.toList

/-- Whitespace test used for Python `\s` and `str.strip` (ASCII subset that
appears in this program's data). -/
def isWs (c : Char) : Bool := c.isWhitespace

/-- Prefix test under a character comparison `eqc`. -/
def isPfxBy (eqc : Char → Char → Bool) : Chars → Chars → Bool
  | [], _ => true
  | _ :: _, [] => false
  | a :: as, b :: bs => eqc a b && isPfxBy eqc as bs

/-- Exact character equality. -/
def chEq (a b : Char) : Bool := a == b

/-- Character equality through `Char.toLower` (Python `re.IGNORECASE`). -/
def chEqCI (a b : Char) : Bool := a.toLower == b.toLower

/-- Case-insensitive prefix test: does pattern `p` occur at the head of the
text, comparing characters through `Char.toLower`? -/
def isPfxCI : Chars → Chars → Bool := isPfxBy chEqCI

/-- Case-sensitive prefix test (Python `str.startswith`). -/
def isPfxL : Chars → Chars → Bool := isPfxBy chEq

/-- Occurrence test under a character comparison. -/
def containsBy (eqc : Char → Char → Bool) (p : Chars) : Chars → Bool
  | [] => isPfxBy eqc p []
  | c :: rest => isPfxBy eqc p (c :: rest) || containsBy eqc p rest

/-- Does `p` occur case-insensitively anywhere in the text? -/
def containsCI : Chars → Chars → Bool := containsBy chEqCI

/-- Does `p` occur case-sensitively anywhere in the text (Python `in`)? -/
def containsL : Chars → Chars → Bool := containsBy chEq

/-- Number of occurrence positions under a character comparison. -/
def countOccBy (eqc : Char → Char → Bool) (p : Chars) : Chars → Nat
  | [] => if isPfxBy eqc p [] then 1 else 0
  | c :: rest => (if isPfxBy eqc p (c :: rest) then 1 else 0) + countOccBy eqc p rest

/-- Number of positions at which `p` occurs case-insensitively. -/
def countOccCI : Chars → Chars → Nat := countOccBy chEqCI

/-- Python `str.strip()`: drop leading and trailing whitespace. -/
def pyStripL (l : Chars) : Chars :=
  ((l.dropWhile isWs).reverse.dropWhile isWs).reverse

/-- Python `str.lower()` (ASCII). -/
def lowerL (l : Chars) : Chars := l.map Char.toLower

/-- Python `str.upper()` (ASCII). -/
def upperL (l : Chars) : Chars := l.map Char.toUpper

/-- Scanner for Python `str.replace(p, "")`: in state `n + 1` the character
belongs to an already-matched occurrence and is dropped; in state `0` the
scanner looks for the pattern at the current position, starting to drop
`p.length` characters on a match. -/
def goDel (p : Chars) : Nat → Chars → Chars
  | _ + 1, [] => []
  | n + 1, _ :: rest => goDel p n rest
  | 0, [] => []
  | 0, c :: rest =>
      if isPfxL p (c :: rest) && !p.isEmpty then goDel p (p.length - 1) rest
      else c :: goDel p 0 rest

/-- Python `str.replace(p, "")` for a pattern `p`: delete every occurrence,
scanning left to right, non-overlapping (the empty pattern deletes nothing,
which this program never relies on). -/
def replaceDel (p : Chars) (l : Chars) : Chars := goDel p 0 l

/-- Python `re.sub(r"\n{3,}", "\n\n", s)`: every maximal run of three or more
newlines shrinks to exactly two, i.e. a newline directly followed by at least
two more newlines is dropped. -/
def collapseNl : Chars → Chars
  | [] => []
  | c :: rest =>
      if c == '\n' && isPfxL (strL "\n\n") rest then collapseNl rest
      else c :: collapseNl rest

/-- Python `re.sub(r" +", " ", s)`: every maximal run of spaces shrinks to a
single space, i.e. a space directly followed by a space is dropped. -/
def collapseSp : Chars → Chars
  | [] => []
  | c :: rest =>
      if c == ' ' && isPfxL (strL " ") rest then collapseSp rest
      else c :: collapseSp rest

/-- The two JSON object delimiter characters. -/
def lbrace : Char := Char.ofNat 123

/-- Closing JSON object delimiter. -/
def rbrace : Char := Char.ofNat 125

/-- A JSON value as produced by Python `json.loads`: objects keep insertion
order, a duplicate key overwrites the value at the first key's position
(Python `dict` semantics).  A number is carried exactly as a normalized pair
`(m, e)` denoting `m * 10 ^ e` with `m` not divisible by ten (so equal decimal
values share one representation; Python's binary floats are thus modelled by
their exact decimal reading). -/
inductive JValue where
  | null : JValue
  | bool : Bool → JValue
  | num : Int → Int → JValue
  | str : Chars → JValue
  | arr : List JValue → JValue
  | obj : List (Chars × JValue) → JValue

/-- Key lookup in a JSON object's key/value list (Python `dict` access). -/
def jLookup (k : Chars) : List (Chars × JValue) → Option JValue
  | [] => none
  | (k2, v) :: rest => if k2 == k then some v else jLookup k rest

/-- Python `dict` insertion `d[k] = v`: replace in place if the key is
present, else append. -/
def jInsert (k : Chars) (v : JValue) : List (Chars × JValue) → List (Chars × JValue)
  | [] => [(k, v)]
  | (k2, v2) :: rest =>
      if k2 == k then (k2, v) :: rest else (k2, v2) :: jInsert k v rest

/-- Python truthiness `bool(x)` of a JSON value. -/
def pyTruthy : JValue → Bool
  | .null => false
  | .bool b => b
  | .num m _ => m != 0
  | .str s => !s.isEmpty
  | .arr xs => !xs.isEmpty
  | .obj kvs => !kvs.isEmpty

/-- Truthiness of an optional string (Python: `None` and `""` are falsy). -/
def truthyOpt : Option Chars → Bool
  | none => false
  | some s => !s.isEmpty

mutual

/-- Python `==` on JSON values: numbers and booleans compare numerically
(`True == 1`); values of unrelated types are unequal.  Python `dict` equality
ignores key order; this model compares entries in order, which coincides on
the comparisons this program performs (list membership of a string). -/
def pyEq : JValue → JValue → Bool
  | .bool a, .bool b => a == b
  | .bool a, .num m e => (if a then (1 : Int) else 0) == m && e == 0
  | .num m e, .bool b => m == (if b then (1 : Int) else 0) && e == 0
  | .num m1 e1, .num m2 e2 => m1 == m2 && e1 == e2
  | .null, .null => true
  | .str a, .str b => a == b
  | .arr xs, .arr ys => pyEqList xs ys
  | .obj xs, .obj ys => pyEqKvs xs ys
  | _, _ => false

/-- Elementwise Python `==` on lists. -/
def pyEqList : List JValue → List JValue → Bool
  | [], [] => true
  | x :: xs, y :: ys => pyEq x y && pyEqList xs ys
  | _, _ => false

/-- Entrywise Python `==` on object entry lists. -/
def pyEqKvs : List (Chars × JValue) → List (Chars × JValue) → Bool
  | [], [] => true
  | (k1, v1) :: xs, (k2, v2) :: ys => k1 == k2 && pyEq v1 v2 && pyEqKvs xs ys
  | _, _ => false

end

/-- Python `x in xs` for a JSON value against a list. -/
def pyMem (x : JValue) (xs : List JValue) : Bool := xs.any (pyEq x)

/-- Value of a hexadecimal digit, if any. -/
def hexVal (c : Char) : Option Nat :=
  if '0' ≤ c ∧ c ≤ '9' then some (c.toNat - 48)
  else if 'a' ≤ c ∧ c ≤ 'f' then some (c.toNat - 87)
  else if 'A' ≤ c ∧ c ≤ 'F' then some (c.toNat - 55)
  else none

/-- Skip JSON inter-token whitespace. -/
def skipWs (l : Chars) : Chars := l.dropWhile isWs

/-- Parse the body of a JSON string literal after the opening quote; returns
the decoded characters and the remainder after the closing quote. -/
def parseStrBody : Chars → Option (Chars × Chars)
  | [] => none
  | c :: rest =>
      if c == '\"' then some ([], rest)
      else if c == '\\' then
        match rest with
        | [] => none
        | e :: rest2 =>
            if e == '\"' then (parseStrBody rest2).map (fun p => ('\"' :: p.1, p.2))
            else if e == '\\' then (parseStrBody rest2).map (fun p => ('\\' :: p.1, p.2))
            else if e == '/' then (parseStrBody rest2).map (fun p => ('/' :: p.1, p.2))
            else if e == 'n' then (parseStrBody rest2).map (fun p => ('\n' :: p.1, p.2))
            else if e == 't' then (parseStrBody rest2).map (fun p => ('\t' :: p.1, p.2))
            else if e == 'r' then (parseStrBody rest2).map (fun p => ('\r' :: p.1, p.2))
            else if e == 'b' then (parseStrBody rest2).map (fun p => (Char.ofNat 8 :: p.1, p.2))
            else if e == 'f' then (parseStrBody rest2).map (fun p => (Char.ofNat 12 :: p.1, p.2))
            else if e == 'u' then
              match rest2 with
              | h1 :: h2 :: h3 :: h4 :: rest3 =>
                  match hexVal h1, hexVal h2, hexVal h3, hexVal h4 with
                  | some a, some b, some c2, some d =>
                      (parseStrBody rest3).map
                        (fun p => (Char.ofNat (((a * 16 + b) * 16 + c2) * 16 + d) :: p.1, p.2))
                  | _, _, _, _ => none
              | _ => none
            else none
      else if c.toNat < 32 then none
      else (parseStrBody rest).map (fun p => (c :: p.1, p.2))

/-- Digits to a natural number. -/
def digitsToNat (l : Chars) : Nat :=
  l.foldl (fun acc c => acc * 10 + (c.toNat - 48)) 0

/-- Normalize a decimal mantissa/exponent pair by dividing tens out of the
mantissa (the fuel bounds the number of divisions). -/
def normNum : Nat → Int → Int → Int × Int
  | 0, m, e => (m, e)
  | fuel + 1, m, e =>
      if m == 0 then (0, 0)
      else if m % 10 == 0 then normNum fuel (m / 10) (e + 1)
      else (m, e)

/-- Parse a JSON number per the JSON grammar (sign, integer part without a
leading zero, optional fraction, optional exponent); the value is returned as
a normalized exact pair `(mantissa, power of ten)`. -/
def parseNum (l : Chars) : Option ((Int × Int) × Chars) :=
  let signed := match l with
    | '-' :: r => (true, r)
    | _ => (false, l)
  let neg := signed.1
  let l1 := signed.2
  let intDigits := l1.takeWhile Char.isDigit
  let l2 := l1.dropWhile Char.isDigit
  if intDigits.isEmpty then none
  else if intDigits.length > 1 && intDigits.head? == some '0' then none
  else
    let fractioned : Option (Chars × Chars) := match l2 with
      | '.' :: r =>
          let fd := r.takeWhile Char.isDigit
          if fd.isEmpty then none else some (fd, r.dropWhile Char.isDigit)
      | _ => some ([], l2)
    match fractioned with
    | none => none
    | some (fracDigits, l3) =>
        let exponented : Option (Bool × Chars × Chars) := match l3 with
          | 'e' :: r | 'E' :: r =>
              let signed2 := match r with
                | '+' :: r2 => (false, r2)
                | '-' :: r2 => (true, r2)
                | _ => (false, r)
              let ed := signed2.2.takeWhile Char.isDigit
              if ed.isEmpty then none
              else some (signed2.1, ed, signed2.2.dropWhile Char.isDigit)
          | _ => some (false, [], l3)
        match exponented with
        | none => none
        | some (eneg, expDigits, l4) =>
            let mant0 : Int := (digitsToNat (intDigits ++ fracDigits) : Int)
            let mant : Int := if neg then -mant0 else mant0
            let exp0 : Int :=
              (if eneg then -(digitsToNat expDigits : Int) else (digitsToNat expDigits : Int)) -
                (fracDigits.length : Int)
            some (normNum mant0.natAbs.succ mant exp0, l4)

mutual

/-- Parse one JSON value; returns the value and the unconsumed remainder. -/
def parseJV : Nat → Chars → Option (JValue × Chars)
  | 0, _ => none
  | fuel + 1, l =>
      match skipWs l with
      | [] => none
      | c :: rest =>
          if c == '\"' then
            (parseStrBody rest).map (fun p => (JValue.str p.1, p.2))
          else if c == lbrace then
            match skipWs rest with
            | c2 :: r2 =>
                if c2 == rbrace then some (JValue.obj [], r2)
                else (parseObjItems fuel (skipWs rest) []).map
                  (fun p => (JValue.obj p.1, p.2))
            | [] => none
          else if c == '[' then
            match skipWs rest with
            | ']' :: r2 => some (JValue.arr [], r2)
            | _ => (parseArrItems fuel (skipWs rest) []).map
                (fun p => (JValue.arr p.1, p.2))
          else if isPfxL (strL "true") (c :: rest) then some (JValue.bool true, rest.drop 3)
          else if isPfxL (strL "false") (c :: rest) then some (JValue.bool false, rest.drop 4)
          else if isPfxL (strL "null") (c :: rest) then some (JValue.null, rest.drop 3)
          else
            (parseNum (c :: rest)).map (fun p => (JValue.num p.1.1 p.1.2, p.2))

/-- Parse the comma-separated items of a JSON array after `[`. -/
def parseArrItems : Nat → Chars → List JValue → Option (List JValue × Chars)
  | 0, _, _ => none
  | fuel + 1, l, acc =>
      match parseJV fuel l with
      | none => none
      | some (v, r1) =>
          match skipWs r1 with
          | ',' :: r2 => parseArrItems fuel r2 (acc ++ [v])
          | ']' :: r2 => some (acc ++ [v], r2)
          | _ => none

/-- Parse the comma-separated members of a JSON object after its opening
brace, accumulating with `dict` insertion semantics. -/
def parseObjItems : Nat → Chars → List (Chars × JValue) →
    Option (List (Chars × JValue) × Chars)
  | 0, _, _ => none
  | fuel + 1, l, acc =>
      match l with
      | '\"' :: rest =>
          match parseStrBody rest with
          | none => none
          | some (k, r1) =>
              match skipWs r1 with
              | ':' :: r2 =>
                  match parseJV fuel r2 with
                  | none => none
                  | some (v, r3) =>
                      let acc2 := jInsert k v acc
                      match skipWs r3 with
                      | ',' :: r4 => parseObjItems fuel (skipWs r4) acc2
                      | c3 :: r4 =>
                          if c3 == rbrace then some (acc2, r4) else none
                      | [] => none
              | _ => none
      | _ => none

end

/-- Python `json.loads`: parse a complete JSON document; trailing content
other than whitespace is an error. -/
def parseJson (l : Chars) : Option JValue :=
  match parseJV (l.length + 8) l with
  | some (v, rest) => if (skipWs rest).isEmpty then some v else none
  | none => none

/-- Fence cleanup `_call_api_service` applies to the stripped response text
before JSON parsing (JobApplyAI.py lines 196-200): under a leading
` ```json ` fence, delete every occurrence of ` ```json ` and of ` ``` ` and
strip; under a plain leading ` ``` ` fence, delete every ` ``` ` and strip;
otherwise leave the text unchanged. -/
def cleanFences (content : Chars) : Chars :=
  if isPfxL (strL "```json") content then
    pyStripL (replaceDel (strL "```") (replaceDel (strL "```json") content))
  else if isPfxL (strL "```") content then
    pyStripL (replaceDel (strL "```") content)
  else content

/-- The only API client the program ever constructs
(`genai.GenerativeModel`, which has `generate_content`); a non-gemini
ApiBased provider leaves the tier's client attribute unset. -/
inductive ClientKind where
  | generative : ClientKind
deriving DecidableEq

/-- Outcome of one `client.generate_content` transport call: an exception,
or a response carrying its `text` (possibly empty). -/
inductive ApiOutcome where
  | throws : ApiOutcome
  | replies : Chars → ApiOutcome

/-- Outcome of one `requests.post` call to the local chat endpoint: an
exception (network error, timeout), or an HTTP status together with the
response body; `none` stands for a body `response.json()` cannot parse. -/
inductive LocalOutcome where
  | throws : LocalOutcome
  | resp : Nat → Option JValue → LocalOutcome

/-- The tier-indexed attributes `_init_tier_config` stores on the processor
(`tier{n}_api_key`, `tier{n}_base_url`, `tier{n}_model`, `tier{n}_client`).
A `none` field models an attribute that was never assigned, so that reading
it with `getattr` raises `AttributeError`. -/
structure TierAttrs where
  api_key : Option Chars
  base_url : Option Chars
  model : Option Chars
  client : Option ClientKind
deriving DecidableEq

/-- Attributes of a tier that was never initialized. -/
def noAttrs : TierAttrs := ⟨none, none, none, none⟩

/-- The processor state `LLMJobProcessor.__init__` builds: the two lowered
provider names and the attribute sets of both tiers. -/
structure ProcState where
  tier1_provider : Chars
  tier2_provider : Chars
  tier1 : TierAttrs
  tier2 : TierAttrs
deriving DecidableEq

/-- Reading the `tier{n}_*` attribute family for a tier number: tiers other
than 1 and 2 have no attributes at all. -/
def tierAttrs (st : ProcState) (tier : Nat) : TierAttrs :=
  if tier == 1 then st.tier1 else if tier == 2 then st.tier2 else noAttrs

/-- Environment-style configuration (`os.getenv` after `.env` loading). -/
abbrev Env := List (Chars × Chars)

/-- Python `os.getenv`. -/
def getenv (env : Env) (k : Chars) : Option Chars :=
  (env.find? (fun kv => kv.1 == k)).map (fun kv => kv.2)

/-- Python `a or b` on two `os.getenv` results. -/
def pyOr (a b : Option Chars) : Option Chars :=
  if truthyOpt a then a else b

/-- Render a small tier number for an error message. -/
def natChars2 (n : Nat) : Chars :=
  if n < 10 then [Char.ofNat (48 + n)]
  else [Char.ofNat (48 + n / 10 % 10), Char.ofNat (48 + n % 10)]

/-- The configuration-error message both resolvers raise when a provider has
neither an API key nor a base URL/host: it names all the possibly missing
variables. -/
def noConfigMsg (provider : Chars) : Chars :=
  strL "No valid configuration found for " ++ provider ++
    strL ". Need either " ++ (upperL provider ++ strL "_API_KEY") ++ strL " or " ++
    (upperL provider ++ strL "_BASE_URL") ++ strL "/" ++
    (upperL provider ++ strL "_HOST") ++ strL " in .env file"

/-- Result of `_init_tier_config` for one tier: which attributes get set. -/
inductive TierCfg where
  | apiBased : (apiKey model : Chars) → (client : Option ClientKind) → TierCfg
  | localService : (baseUrl model : Chars) → TierCfg
deriving DecidableEq

/-- JobApplyAI.py `_init_tier_config` (lines 66-122): look the provider's
environment entries up; a truthy API key classifies the provider as
API-based (model falling back to `<provider>-default-model`, a client built
only when the lowered provider name contains `gemini`); otherwise a truthy
base URL or host classifies it as a local service (whose model is
mandatory); otherwise raise a `ValueError` naming both of the possible
missing variables.  The `google-generativeai` import is assumed present. -/
def initTierConfig (tier : Nat) (provider : Chars) (env : Env) : Except Chars TierCfg :=
  let providerUpper := upperL provider
  let baseUrlKey := providerUpper ++ strL "_BASE_URL"
  let hostKey := providerUpper ++ strL "_HOST"
  let modelKey := providerUpper ++ strL "_MODEL"
  let apiKeyKey := providerUpper ++ strL "_API_KEY"
  let apiKey := getenv env apiKeyKey
  let baseUrl := pyOr (getenv env baseUrlKey) (getenv env hostKey)
  let model := getenv env modelKey
  if truthyOpt apiKey then
    let storedModel :=
      if truthyOpt model then model.getD [] else provider ++ strL "-default-model"
    let client :=
      if containsL (strL "gemini") (lowerL provider) then some ClientKind.generative else none
    .ok (.apiBased (apiKey.getD []) storedModel client)
  else if truthyOpt baseUrl then
    if !truthyOpt model then
      .error (modelKey ++ strL " must be set in .env file for Tier " ++ natChars2 tier)
    else
      .ok (.localService (baseUrl.getD []) (model.getD []))
  else
    .error (noConfigMsg provider)

/-- Attribute assignments a `TierCfg` performs (`setattr` calls of
`_init_tier_config`). -/
def applyCfg : TierCfg → TierAttrs
  | .apiBased k m c => ⟨some k, none, some m, c⟩
  | .localService b m => ⟨none, some b, some m, none⟩

/-- JobApplyAI.py `LLMJobProcessor.__init__` with `_init_provider_configs`
(lines 26-64): require both tier provider names, lower them, initialize
tier 1, and run tier-2 initialization only when the tier-2 provider differs
from tier 1's — otherwise no `tier2_*` attribute is ever assigned. -/
def initProcessor (env : Env) : Except Chars ProcState :=
  let p1raw := getenv env (strL "TIER1_LLM_PROVIDER")
  let p2raw := getenv env (strL "TIER2_LLM_PROVIDER")
  if !truthyOpt p1raw then .error (strL "TIER1_LLM_PROVIDER must be set in .env file")
  else if !truthyOpt p2raw then .error (strL "TIER2_LLM_PROVIDER must be set in .env file")
  else
    let p1 := lowerL (p1raw.getD [])
    let p2 := lowerL (p2raw.getD [])
    match initTierConfig 1 p1 env with
    | .error e => .error e
    | .ok cfg1 =>
        if p2 != p1 then
          match initTierConfig 2 p2 env with
          | .error e => .error e
          | .ok cfg2 => .ok ⟨p1, p2, applyCfg cfg1, applyCfg cfg2⟩
        else
          .ok ⟨p1, p2, applyCfg cfg1, noAttrs⟩

/-- The full prompt `_call_api_service` sends (lines 183-189): system prompt
first when one is given, plus an explicit JSON-only instruction when the
prompt contains a JSON marker. -/
def fullPromptApi (prompt : Chars) (sysPrompt : Option Chars) : Chars :=
  let fp := if truthyOpt sysPrompt then sysPrompt.getD [] ++ strL "\n\n" ++ prompt else prompt
  if containsL (strL "Return a JSON object") prompt || containsL (strL "as JSON") prompt then
    fp ++ strL "\n\nIMPORTANT: Return only valid JSON, no additional text or markdown formatting."
  else fp

/-- JobApplyAI.py `_call_api_service` (lines 173-216): no client attribute
raises a `ValueError`; a client exception propagates (the function has no
`try`); an empty response text reports `(None, False)`; otherwise the
stripped, fence-cleaned text is JSON-parsed, falling back to a
`(= "content": rawText)` wrapper on parse failure. -/
def callApiService (attrs : TierAttrs) (net : ApiOutcome) :
    Except Chars (Option JValue × Bool) :=
  match attrs.client with
  | none => .error (strL "No client found for this tier")
  | some .generative =>
      match net with
      | .throws => .error (strL "generate_content raised")
      | .replies text =>
          if !text.isEmpty then
            let content := cleanFences (pyStripL text)
            match parseJson content with
            | some v => .ok (some v, true)
            | none => .ok (some (JValue.obj [(strL "content", JValue.str content)]), true)
          else .ok (none, false)

/-- The message list `_call_local_service` posts to `<base_url>/api/chat`
(lines 229-232): an optional leading system message, then the user prompt. -/
def localMessages (prompt : Chars) (sysPrompt : Option Chars) : List (Chars × Chars) :=
  (if truthyOpt sysPrompt then [(strL "system", sysPrompt.getD [])] else []) ++
    [(strL "user", prompt)]

/-- Extraction `result.get('message', {}).get('content', '')` followed by
`json.loads(content)`'s type requirement: `none` models the paths on which
the Python raises (`result` or `message` not a dict, `content` not a
string), which the enclosing `except` then turns into `(None, False)`. -/
def extractMsgContent : JValue → Option Chars
  | .obj kvs =>
      match jLookup (strL "message") kvs with
      | none => some []
      | some (.obj mkvs) =>
          match jLookup (strL "content") mkvs with
          | none => some []
          | some (.str s) => some s
          | some _ => none
      | some _ => none
  | _ => none

/-- JobApplyAI.py `_call_local_service` (lines 218-264): a missing `requests`
package re-raises as `ValueError`; every other exception inside the function
is caught there and reported as `(None, False)`; a 200 response has its
assistant content JSON-parsed with the same raw-text fallback as the API
path; a non-200 status reports `(None, False)`. -/
def callLocalService (attrs : TierAttrs) (requestsOk : Bool) (net : LocalOutcome) :
    Except Chars (Option JValue × Bool) :=
  if !requestsOk then
    .error (strL "requests package is required for local services. Install with: pip install requests")
  else
    match attrs.base_url, attrs.model with
    | some _, some _ =>
        match net with
        | .throws => .ok (none, false)
        | .resp status body =>
            if status == 200 then
              match body with
              | none => .ok (none, false)
              | some bv =>
                  match extractMsgContent bv with
                  | none => .ok (none, false)
                  | some s =>
                      match parseJson s with
                      | some v => .ok (some v, true)
                      | none =>
                          .ok (some (JValue.obj [(strL "content", JValue.str s)]), true)
            else .ok (none, false)
    | _, _ => .ok (none, false)

/-- The body of JobApplyAI.py `_call_tier_llm` (lines 149-167), before the
enclosing `try`: read the tier's model attribute (raising `AttributeError`
when it was never set), then branch on which attributes exist. -/
def callTierBody (st : ProcState) (tier : Nat) (apiNet : ApiOutcome)
    (localNet : LocalOutcome) (requestsOk : Bool) :
    Except Chars (Option JValue × Bool) :=
  let attrs := tierAttrs st tier
  match attrs.model with
  | none => .error (strL "AttributeError: the tier model attribute was never set")
  | some _ =>
      if attrs.api_key.isSome then callApiService attrs apiNet
      else if attrs.base_url.isSome then callLocalService attrs requestsOk localNet
      else .error (strL "No valid configuration found for this tier")

/-- JobApplyAI.py `_call_tier_llm` (lines 147-171): every exception the body
raises is caught at this boundary and converted to `(None, False)`. -/
def callTierLlm (st : ProcState) (tier : Nat) (apiNet : ApiOutcome)
    (localNet : LocalOutcome) (requestsOk : Bool) : Option JValue × Bool :=
  match callTierBody st tier apiNet localNet requestsOk with
  | .ok p => p
  | .error _ => (none, false)

/-- Field read with a default (`result.get(k, d)` on a parsed object). -/
def jGetD (kvs : List (Chars × JValue)) (k : Chars) (d : JValue) : JValue :=
  (jLookup k kvs).getD d

/-- The eleven keys of the structured resume record. -/
def resumeKeys : List Chars :=
  [strL "name", strL "email", strL "phone", strL "location", strL "title",
   strL "experience_summary", strL "years_experience", strL "key_skills",
   strL "education", strL "certifications", strL "full_content"]

/-- JobApplyAI.py `_llm_extract_resume_info` result handling (lines 583-603):
on dispatcher success with a truthy payload, build the resume record reading
every field through `.get` with an explicit default; on failure raise.  A
truthy non-dict payload makes `.get` raise `AttributeError` instead. -/
def llmExtractResumeInfo (resumeText : Chars) (outcome : Option JValue × Bool) :
    Except Chars (List (Chars × JValue)) :=
  match outcome with
  | (some (.obj kvs), true) =>
      if pyTruthy (.obj kvs) then
        .ok [(strL "name", jGetD kvs (strL "name") (.str (strL "Candidate"))),
             (strL "email", jGetD kvs (strL "email") (.str (strL "candidate@email.com"))),
             (strL "phone", jGetD kvs (strL "phone") (.str (strL "Not specified"))),
             (strL "location", jGetD kvs (strL "location") (.str (strL "Not specified"))),
             (strL "title", jGetD kvs (strL "title") (.str (strL "Professional"))),
             (strL "experience_summary", jGetD kvs (strL "experience_summary") (.str [])),
             (strL "years_experience", jGetD kvs (strL "years_experience") (.num 0 0)),
             (strL "key_skills", jGetD kvs (strL "key_skills") (.arr [])),
             (strL "education", jGetD kvs (strL "education") (.str (strL "Not specified"))),
             (strL "certifications", jGetD kvs (strL "certifications") (.arr [])),
             (strL "full_content", .str resumeText)]
      else .error (strL "LLM resume extraction failed. Please check your LLM connection and model availability.")
  | (some r, true) =>
      if pyTruthy r then .error (strL "AttributeError: result has no attribute get")
      else .error (strL "LLM resume extraction failed. Please check your LLM connection and model availability.")
  | _ => .error (strL "LLM resume extraction failed. Please check your LLM connection and model availability.")

/-- JobApplyAI.py `_llm_extract_job_info` result handling (lines 641-647):
on dispatcher success with a truthy payload, the parsed dict is returned
verbatim (its fields are only read, through `.get`, by the success print and
by later consumers); on failure raise. -/
def llmExtractJobInfo (outcome : Option JValue × Bool) : Except Chars JValue :=
  match outcome with
  | (some (.obj kvs), true) =>
      if pyTruthy (JValue.obj kvs) then .ok (.obj kvs)
      else .error (strL "LLM job extraction failed. Please check your LLM connection and model availability.")
  | (some r, true) =>
      if pyTruthy r then .error (strL "AttributeError: result has no attribute get")
      else .error (strL "LLM job extraction failed. Please check your LLM connection and model availability.")
  | _ => .error (strL "LLM job extraction failed. Please check your LLM connection and model availability.")

/-- The tier-2 user prompt of the body-text fallback
(JobApplyAI.py line 974): the fixed instruction plus the first 3000
characters of the page body. -/
def fallbackUserPrompt (bodyText : Chars) : Chars :=
  strL "Extract the job description and requirements from this webpage text:\n\n" ++
    bodyText.take 3000

/-- JobApplyAI.py body-text fallback of `enhanced_job_processor`
(lines 965-983), as a function of the evaluated body text (`none` when the
page evaluation raised or returned nothing) and of the tier-2 dispatcher
outcome: the dispatcher result becomes the job description only when the
call succeeded and its payload carries a truthy `content` entry; any
exception inside the block is caught, leaving the description `None`. -/
def fallbackJobDescription (bodyText : Option Chars) (outcome : Option JValue × Bool) :
    Option JValue :=
  match bodyText with
  | none => none
  | some bt =>
      if !bt.isEmpty && (pyStripL bt).length > 300 then
        match outcome with
        | (some (.obj kvs), true) =>
            match jLookup (strL "content") kvs with
            | some v => if pyTruthy v then some v else none
            | none => none
        | _ => none
      else none

/-- Render a natural number's decimal digits (fuel-driven). -/
def natDigitsAux : Nat → Nat → Chars
  | 0, _ => []
  | fuel + 1, n =>
      if n < 10 then [Char.ofNat (48 + n)]
      else natDigitsAux fuel (n / 10) ++ [Char.ofNat (48 + n % 10)]

/-- Decimal digits of a natural number. -/
def natChars (n : Nat) : Chars := natDigitsAux (n + 1) n

/-- Python `str` of an integer. -/
def intChars (i : Int) : Chars :=
  if i < 0 then '-' :: natChars i.natAbs else natChars i.toNat

/-- Python `str` of a JSON number (integers exactly; other numbers in an
exponent shape — a harmless approximation of float `repr`, which no claim
exercises). -/
def numChars (m e : Int) : Chars :=
  if 0 ≤ e then intChars (m * (10 : Int) ^ e.toNat)
  else intChars m ++ strL "e" ++ intChars e

mutual

/-- Python `repr` of a JSON value (strings in single quotes). -/
def pyRepr : JValue → Chars
  | .null => strL "None"
  | .bool b => if b then strL "True" else strL "False"
  | .num m e => numChars m e
  | .str s => '\'' :: s ++ [Char.ofNat 39]
  | .arr xs => '[' :: pyReprList xs ++ [']']
  | .obj kvs => lbrace :: pyReprKvs kvs ++ [rbrace]

/-- Comma-joined `repr`s of list items. -/
def pyReprList : List JValue → Chars
  | [] => []
  | [x] => pyRepr x
  | x :: rest => pyRepr x ++ strL ", " ++ pyReprList rest

/-- Comma-joined `repr`s of dict entries. -/
def pyReprKvs : List (Chars × JValue) → Chars
  | [] => []
  | [(k, v)] => '\'' :: k ++ strL "': " ++ pyRepr v
  | (k, v) :: rest => '\'' :: k ++ strL "': " ++ pyRepr v ++ strL ", " ++ pyReprKvs rest

end

/-- Python `str()` of a JSON value (like `repr`, but a bare string stays
itself). -/
def pyStr : JValue → Chars
  | .str s => s
  | v => pyRepr v

/-- Python `\w` (ASCII part; the program only feeds it ASCII data). -/
def isWordChar (c : Char) : Bool := c.isAlphanum || c == '_'

/-- A character of the class `[-\s]`. -/
def isRunChar (c : Char) : Bool := isWs c || c == '-'

/-- Python `re.sub(r"[-\s]+", "_", s)`: each maximal run of hyphens and
whitespace becomes one underscore (a run character is dropped while its
successor is also one, and emits the underscore otherwise). -/
def collapseRuns : Chars → Chars
  | [] => []
  | c :: rest =>
      if isRunChar c then
        match rest with
        | c2 :: _ => if isRunChar c2 then collapseRuns rest else '_' :: collapseRuns rest
        | [] => ['_']
      else c :: collapseRuns rest

/-- The two-step cleaning `_create_intelligent_folder_name` applies to a name
part (lines 670-675): `re.sub(r"[^\w\s-]", "", s).strip()` then
`re.sub(r"[-\s]+", "_", ...)`. -/
def cleanNamePart (s : Chars) : Chars :=
  collapseRuns (pyStripL (s.filter (fun c => isWordChar c || isWs c || c == '-')))

/-- Value normalization `_create_intelligent_folder_name` performs before
cleaning (lines 655-667): a missing key falls back to the default; a list is
replaced by its first element — used as-is, so a non-string first element
later makes `re.sub` raise `TypeError` (modelled here as the error) — and an
empty list by the default; a non-string scalar becomes its `str()` when
truthy and the default otherwise. -/
def resolveNameField (v : Option JValue) (dflt : Chars) : Except Chars Chars :=
  match v.getD (.str dflt) with
  | .arr [] => .ok dflt
  | .arr (x :: _) =>
      match x with
      | .str s => .ok s
      | _ => .error (strL "TypeError: expected string or bytes-like object")
  | .str s => .ok s
  | other => if pyTruthy other then .ok (pyStr other) else .ok dflt

/-- JobApplyAI.py `_create_intelligent_folder_name` (lines 653-683), with the
timestamp as a parameter: normalize and clean company and title, truncate the
title to 25 characters, and join the three parts with underscores. -/
def createIntelligentFolderName (jobData : List (Chars × JValue)) (timestamp : Chars) :
    Except Chars Chars :=
  match resolveNameField (jLookup (strL "company") jobData) (strL "Unknown_Company") with
  | .error e => .error e
  | .ok company =>
      match resolveNameField (jLookup (strL "job_title") jobData) (strL "Position") with
      | .error e => .error e
      | .ok title =>
          let cleanCompany := cleanNamePart company
          let cleanTitle0 := cleanNamePart title
          let cleanTitle := if cleanTitle0.length > 25 then cleanTitle0.take 25 else cleanTitle0
          .ok (cleanCompany ++ strL "_" ++ cleanTitle ++ strL "_" ++ timestamp)

/-- Outcome of the `GET <base_url>/api/tags` connection probe of
llm_cover_letter.py `_test_local_connection`. -/
inductive TagsOutcome where
  | throws : TagsOutcome
  | resp : Nat → Option JValue → TagsOutcome

/-- Names of the advertised models, `[model['name'] for model in models]`;
`none` models the comprehension raising on an item without a `name` key or a
non-dict item. -/
def itemNames : List JValue → Option (List JValue)
  | [] => some []
  | .obj kvs :: rest =>
      match jLookup (strL "name") kvs with
      | some n => (itemNames rest).map (fun ns => n :: ns)
      | none => none
  | _ :: _ => none

/-- The advertised model names of a `/api/tags` body,
`response.json().get('models', [])` fed to the comprehension; `none` models
a raising extraction. -/
def tagsNames : JValue → Option (List JValue)
  | .obj kvs =>
      match jGetD kvs (strL "models") (.arr []) with
      | .arr items => itemNames items
      | _ => none
  | _ => none

/-- The tier-1 descriptor of a local provider in llm_cover_letter.py
(`tier1_base_url`, `tier1_model`); the model is carried as a JSON value
because the connection test may assign any advertised name to it. -/
structure LocalT1 where
  base_url : Chars
  model : JValue

/-- llm_cover_letter.py `_test_local_connection` (lines 81-97): any probe
failure, non-200 status or raising extraction becomes a `ValueError`; on
success, when the configured model is not among the advertised names and at
least one name is advertised, the first advertised name replaces the
descriptor's model. -/
def testLocalConnection (a : LocalT1) (probe : TagsOutcome) : Except Chars LocalT1 :=
  let connectErr := strL "Cannot connect to the provider at " ++ a.base_url ++
    strL ". Make sure service is running."
  match probe with
  | .throws => .error connectErr
  | .resp status body =>
      if status == 200 then
        match body with
        | none => .error connectErr
        | some bv =>
            match tagsNames bv with
            | none => .error connectErr
            | some names =>
                if !pyMem a.model names then
                  match names with
                  | n :: _ => .ok ⟨a.base_url, n⟩
                  | [] => .ok a
                else .ok a
      else .error connectErr

/-- Result of llm_cover_letter.py `_init_tier1_config`. -/
inductive T1Cfg where
  | apiBased : (apiKey model : Chars) → (client : Option ClientKind) → T1Cfg
  | localService : LocalT1 → T1Cfg

/-- llm_cover_letter.py `_init_tier1_config` (lines 32-79): the same
classification order as `_init_tier_config` — a truthy API key means
API-based (model falling back to `<provider>-default`), else a truthy base
URL or host means a local service whose model is mandatory and whose
connection is probed, else a `ValueError` naming both possible missing
variables.  The `<PROVIDER>_TEMPERATURE` / `<PROVIDER>_MAX_TOKENS` reads
are generation options, not descriptor fields, and are elided. -/
def initTier1Config (provider : Chars) (env : Env) (probe : TagsOutcome) :
    Except Chars T1Cfg :=
  let providerUpper := upperL provider
  let baseUrlKey := providerUpper ++ strL "_BASE_URL"
  let hostKey := providerUpper ++ strL "_HOST"
  let modelKey := providerUpper ++ strL "_MODEL"
  let apiKeyKey := providerUpper ++ strL "_API_KEY"
  let apiKey := getenv env apiKeyKey
  let baseUrl := pyOr (getenv env baseUrlKey) (getenv env hostKey)
  let model := getenv env modelKey
  if truthyOpt apiKey then
    let storedModel := if truthyOpt model then model.getD [] else provider ++ strL "-default"
    let client :=
      if containsL (strL "gemini") (lowerL provider) then some ClientKind.generative else none
    .ok (.apiBased (apiKey.getD []) storedModel client)
  else if truthyOpt baseUrl then
    if !truthyOpt model then .error (modelKey ++ strL " must be set in .env file")
    else
      match testLocalConnection ⟨baseUrl.getD [], .str (model.getD [])⟩ probe with
      | .error e => .error e
      | .ok a => .ok (.localService a)
  else
    .error (noConfigMsg provider)

/-- Index of the last newline of a list, if any. -/
def lastNlIdx : Chars → Option Nat
  | [] => none
  | c :: rest =>
      match lastNlIdx rest with
      | some i => some (i + 1)
      | none => if c == '\n' then some 0 else none

/-- Length of the shortest prefix whose removal leaves either a leading
`"\n\n"` or nothing — the extent of the lazy `.*?(?=\n\n|\Z)` under
`re.DOTALL`. -/
def dblNlSearch : Chars → Nat
  | '\n' :: '\n' :: _ => 0
  | _ :: rest => 1 + dblNlSearch rest
  | [] => 0

/-- Chars of `rest` consumed by `<kw>\s*\n+.*?(?=\n\n|\Z)` when the
signature pattern matches right after a newline, `none` when it does not
match there: the keyword must be present case-insensitively, and the
backtracking of `\s*\n+` makes the whitespace part end at the last newline
of the maximal whitespace run after the keyword. -/
def sigTailLen (kw : Chars) (rest : Chars) : Option Nat :=
  if isPfxCI kw rest then
    let cs := rest.drop kw.length
    match lastNlIdx (cs.takeWhile isWs) with
    | none => none
    | some i => some (kw.length + (i + 1) + dblNlSearch (cs.drop (i + 1)))
  else none

/-- Scanner for `re.sub("\n" + kw + r"\s*\n+.*?(?=\n\n|\Z)", "", s)` under
`re.DOTALL | re.IGNORECASE`: in state `n + 1` the character belongs to an
already-matched occurrence and is dropped; in state `0` the scanner checks
for a match starting at the current newline. -/
def goStrip (kw : Chars) : Nat → Chars → Chars
  | _ + 1, [] => []
  | n + 1, _ :: rest => goStrip kw n rest
  | 0, [] => []
  | 0, c :: rest =>
      if c == '\n' then
        match sigTailLen kw rest with
        | some k => goStrip kw k rest
        | none => c :: goStrip kw 0 rest
      else c :: goStrip kw 0 rest

/-- One signature-pattern pass of `re.sub` (pattern `"\n" + kw + ...` as
above, replacement empty). -/
def stripSigPass (kw : Chars) (l : Chars) : Chars := goStrip kw 0 l

/-- llm_cover_letter.py `_post_process_cover_letter` lines 377-386: the three
signature patterns `thanks,` / `Best regards,` / `Sincerely,` removed in
order. -/
def stripSignatures (l : Chars) : Chars :=
  stripSigPass (strL "sincerely,")
    (stripSigPass (strL "best regards,") (stripSigPass (strL "thanks,") l))

/-- Join lines with newlines (Python `"\n".join`). -/
def joinNl : List Chars → Chars
  | [] => []
  | [x] => x
  | x :: rest => x ++ strL "\n" ++ joinNl rest

/-- The signature step of llm_cover_letter.py `_post_process_cover_letter`
(lines 376-406): strip every matched signature block, strip whitespace,
append the canonical closing and the candidate name, append the contact
lines (the email unless it is the placeholder default, then the LinkedIn
URL, each when truthy), collapse newline runs and space runs, and strip. -/
def postProcessSignature (letter : Chars) (name email linkedin : Chars) : Chars :=
  let l1 := pyStripL (stripSignatures letter)
  let l2 := l1 ++ strL "\n\nthanks,\n\n" ++ name
  let contacts :=
    (if !email.isEmpty && email != strL "candidate@email.com" then [email] else []) ++
      (if !linkedin.isEmpty then [linkedin] else [])
  let l3 := if !contacts.isEmpty then l2 ++ strL "\n" ++ joinNl contacts else l2
  pyStripL (collapseSp (collapseNl l3))

/-- Number of positions at which one of the three signature closings occurs
case-insensitively. -/
def sigOccurrences (l : Chars) : Nat :=
  countOccCI (strL "thanks,") l + countOccCI (strL "best regards,") l +
    countOccCI (strL "sincerely,") l

/-- Does a signature-pattern match start at the head of `l` (a newline
followed by a matching keyword and tail)? -/
def matchAt (kw : Chars) : Chars → Bool
  | [] => false
  | c :: rest => c == '\n' && (sigTailLen kw rest).isSome

/-- Does the newline-collapsing rule fire at the head of `l`? -/
def nlFireAt : Chars → Bool
  | [] => false
  | c :: rest => c == '\n' && isPfxL (strL "\n\n") rest

/-- Does the space-collapsing rule fire at the head of `l`? -/
def spFireAt : Chars → Bool
  | [] => false
  | c :: rest => c == ' ' && isPfxL (strL " ") rest

/-- The advertised names a successful `/api/tags` probe carries. -/
def probeNames : TagsOutcome → Option (List JValue)
  | .throws => none
  | .resp status body => if status == 200 then body.bind tagsNames else none

/-- Environment for the same-provider scenario of the spec: both tiers name
the local provider `ollama`, with a valid base URL and model. -/
def envC1 : Env :=
  [(strL "TIER1_LLM_PROVIDER", strL "Ollama"),
   (strL "TIER2_LLM_PROVIDER", strL "ollama"),
   (strL "OLLAMA_BASE_URL", strL "http://localhost:11434"),
   (strL "OLLAMA_MODEL", strL "llama3")]

/-- The processor state `envC1` initializes: tier 1 fully configured as a
local service, tier 2 with no attribute assigned at all. -/
def stC1 : ProcState :=
  ⟨strL "ollama", strL "ollama",
   ⟨none, some (strL "http://localhost:11434"), some (strL "llama3"), none⟩,
   noAttrs⟩

/-- A fully successful local-chat response whose assistant content is the
JSON object `(= "summary": "ok")`. -/
def locGood : LocalOutcome :=
  .resp 200 (some (.obj [(strL "message",
    .obj [(strL "content", .str (strL "\x7b\"summary\": \"ok\"\x7d"))])]))

/-- Tier attributes of an API-based gemini-style provider. -/
def apiAttrs : TierAttrs :=
  ⟨some (strL "sk-1"), none, some (strL "gemini-1.5-pro"), some .generative⟩

/-- A page body of 301 identical characters — above the 300-character
fallback threshold. -/
def bodyC2 : Chars := List.replicate 301 'a'

/-- A successful tier-2 dispatcher outcome whose payload is a well-formed
JSON object that carries no `content` key. -/
def resC2 : Option JValue × Bool :=
  (some (.obj [(strL "job_title", .str (strL "Engineer"))]), true)

/-- A job-data record whose `company` arrived as a one-element list holding
a number instead of a string. -/
def jdC10 : List (Chars × JValue) :=
  [(strL "company", .arr [.num 3 0]), (strL "job_title", .str (strL "Engineer"))]

/-- A local tier-1 descriptor configured for the model `llama3`. -/
def descC8 : LocalT1 := ⟨strL "http://localhost:11434", .str (strL "llama3")⟩

/-- A `/api/tags` probe response advertising only the model `mistral`. -/
def tagsOnlyMistral : TagsOutcome :=
  .resp 200 (some (.obj [(strL "models",
    .arr [.obj [(strL "name", .str (strL "mistral"))]])]))

/-- A `/api/tags` probe response advertising the model `llama3`. -/
def tagsHasLlama : TagsOutcome :=
  .resp 200 (some (.obj [(strL "models",
    .arr [.obj [(strL "name", .str (strL "llama3"))]])]))

/-- The canonical tail the signature step appends for the candidate
`Jane Doe` with contact email `jane@x.com`. -/
def sigTailJane : Chars := strL "\n\nthanks,\n\nJane Doe\njane@x.com"

/-- An existing trailing signature block (as an LLM would emit). -/
def oldSigBlock : Chars := strL "\n\nBest regards,\nOld Name"

/-- A well-formed letter body with no signature material. -/
def bodyJane : Chars := strL "Dear Acme,\n\nI am excited to apply."

/-- The unwrapped well-formed JSON text of the fence counterexample: its
string value contains a triple backtick. -/
def jsonC6 : Chars := strL "\x7b\"a\": \"x```y\"\x7d"

/-- `jsonC6` wrapped in a Markdown ` ```json ` code fence. -/
def wrapC6 : Chars := strL "```json\n" ++ jsonC6 ++ strL "\n```"

/-! ### Helper lemmas: prefix and occurrence machinery -/

theorem pfxBy_append_of {e : Char → Char → Bool} {p x : Chars} (y : Chars)
    (h : isPfxBy e p x = true) : isPfxBy e p (x ++ y) = true := by
  induction p generalizing x with
  | nil => simp [isPfxBy]
  | cons a as ih =>
      cases x with
      | nil => simp [isPfxBy] at h
      | cons b bs =>
          simp only [isPfxBy, List.cons_append, Bool.and_eq_true] at h ⊢
          exact ⟨h.1, ih h.2⟩

theorem pfxBy_of_append {e : Char → Char → Bool} {p x y : Chars}
    (h : isPfxBy e p (x ++ y) = true) (hl : p.length ≤ x.length) :
    isPfxBy e p x = true := by
  induction p generalizing x with
  | nil => simp [isPfxBy]
  | cons a as ih =>
      cases x with
      | nil => simp at hl
      | cons b bs =>
          simp only [isPfxBy, List.cons_append, Bool.and_eq_true] at h ⊢
          refine ⟨h.1, ih h.2 ?_⟩
          simpa using hl

theorem pfxBy_append_drop {e : Char → Char → Bool} {p x y : Chars}
    (h : isPfxBy e p (x ++ y) = true) :
    isPfxBy e (p.drop x.length) y = true := by
  induction p generalizing x with
  | nil => simp [isPfxBy]
  | cons a as ih =>
      cases x with
      | nil => simpa using h
      | cons b bs =>
          simp only [isPfxBy, List.cons_append, Bool.and_eq_true] at h
          simpa using ih h.2

theorem pfxBy_length_le {e : Char → Char → Bool} {p x : Chars}
    (h : isPfxBy e p x = true) : p.length ≤ x.length := by
  induction p generalizing x with
  | nil => simp
  | cons a as ih =>
      cases x with
      | nil => simp [isPfxBy] at h
      | cons b bs =>
          simp only [isPfxBy, Bool.and_eq_true] at h
          simpa using ih h.2

theorem pfxBy_false_of_lt {e : Char → Char → Bool} {p x : Chars}
    (h : x.length < p.length) : isPfxBy e p x = false := by
  cases hv : isPfxBy e p x with
  | false => rfl
  | true => exact absurd (pfxBy_length_le hv) (by omega)

theorem containsBy_cons_false {e : Char → Char → Bool} {p : Chars} {c : Char} {l : Chars}
    (h : containsBy e p (c :: l) = false) :
    isPfxBy e p (c :: l) = false ∧ containsBy e p l = false := by
  simpa [containsBy] using h

theorem containsBy_drop_false {e : Char → Char → Bool} {p l : Chars}
    (h : containsBy e p l = false) : ∀ i, isPfxBy e p (l.drop i) = false := by
  induction l with
  | nil =>
      intro i
      simp only [List.drop_nil]
      simpa [containsBy] using h
  | cons c rest ih =>
      have h2 := containsBy_cons_false h
      intro i
      cases i with
      | zero => exact h2.1
      | succ j => simpa using ih h2.2 j

theorem countOccBy_zero {e : Char → Char → Bool} {p l : Chars}
    (h : containsBy e p l = false) : countOccBy e p l = 0 := by
  induction l with
  | nil =>
      have : isPfxBy e p [] = false := by simpa [containsBy] using h
      simp [countOccBy, this]
  | cons c rest ih =>
      have h2 := containsBy_cons_false h
      simp [countOccBy, h2.1, ih h2.2]

theorem containsBy_here {e : Char → Char → Bool} {p l : Chars}
    (h : isPfxBy e p l = true) : containsBy e p l = true := by
  cases l <;> simp [containsBy, h]

theorem containsBy_cons_of {e : Char → Char → Bool} {p l : Chars} (c : Char)
    (h : containsBy e p l = true) : containsBy e p (c :: l) = true := by
  simp [containsBy, h]

theorem containsBy_append_right {e : Char → Char → Bool} {p : Chars} (a : Chars) {b : Chars}
    (h : containsBy e p b = true) : containsBy e p (a ++ b) = true := by
  induction a with
  | nil => simpa using h
  | cons c a' ih => simpa using containsBy_cons_of c ih

theorem isPfxL_self (p b : Chars) : isPfxL p (p ++ b) = true := by
  induction p with
  | nil => simp [isPfxL, isPfxBy]
  | cons a as ih => simpa [isPfxL, isPfxBy, chEq] using ih

theorem containsL_surround (a p b : Chars) : containsL p (a ++ (p ++ b)) = true :=
  containsBy_append_right a (containsBy_here (isPfxL_self p b))

theorem pfxL_trans {q p t : Chars} (h1 : isPfxL q p = true) (h2 : isPfxL p t = true) :
    isPfxL q t = true := by
  induction q generalizing p t with
  | nil => simp [isPfxL, isPfxBy]
  | cons a as ih =>
      cases p with
      | nil => simp [isPfxL, isPfxBy] at h1
      | cons b bs =>
          cases t with
          | nil => simp [isPfxL, isPfxBy] at h2
          | cons c cs =>
              simp only [isPfxL, isPfxBy, chEq, Bool.and_eq_true, beq_iff_eq] at h1 h2 ⊢
              exact ⟨h1.1.trans h2.1, ih h1.2 h2.2⟩

theorem containsL_mono {q p l : Chars} (hqp : isPfxL q p = true)
    (h : containsL p l = true) : containsL q l = true := by
  induction l with
  | nil =>
      have : isPfxL p [] = true := by simpa [containsL, containsBy] using h
      exact containsBy_here (pfxL_trans hqp this)
  | cons c rest ih =>
      rcases (by simpa [containsL, containsBy] using h :
          isPfxBy chEq p (c :: rest) = true ∨ containsBy chEq p rest = true) with h1 | h1
      · exact containsBy_here (pfxL_trans hqp h1)
      · exact containsBy_cons_of c (ih h1)

theorem drop_cons_of_drop {l : Chars} {i : Nat} {c : Char} {rest : Chars}
    (h : l.drop i = c :: rest) : l.drop (i + 1) = rest := by
  have ht : (l.drop i).tail = l.drop (i + 1) := List.tail_drop l i
  rw [← ht, h]
  rfl

theorem last_of_drop_single {l : Chars} {i : Nat} {c : Char} (h : l.drop i = [c]) :
    l.reverse.head? = some c := by
  have h2 := List.take_append_drop i l
  rw [h] at h2
  rw [← h2]
  simp

/-! ### Helper lemmas: the `replace` scanner -/

theorem goDel_skip (p : Chars) (pre rest : Chars) :
    goDel p pre.length (pre ++ rest) = goDel p 0 rest := by
  induction pre with
  | nil => rfl
  | cons c pre' ih => simpa [goDel] using ih

theorem goDel_head {p : Chars} (hp : p ≠ []) (rest : Chars) :
    goDel p 0 (p ++ rest) = goDel p 0 rest := by
  cases p with
  | nil => exact absurd rfl hp
  | cons a as =>
      have hpfx : isPfxL (a :: as) ((a :: as) ++ rest) = true := isPfxL_self _ _
      have : goDel (a :: as) 0 (a :: (as ++ rest)) =
          goDel (a :: as) ((a :: as).length - 1) (as ++ rest) := by
        simp [goDel, isPfxL, isPfxBy, chEq] at hpfx ⊢
        simp [hpfx]
      rw [List.cons_append, this]
      simpa using goDel_skip (a :: as) as rest

theorem goDel_append {p a t : Chars} (h : ∀ i, isPfxL p ((a.drop i) ++ t) = false) :
    goDel p 0 (a ++ t) = a ++ goDel p 0 t := by
  induction a with
  | nil => rfl
  | cons c a' ih =>
      have h0 : isPfxL p (c :: (a' ++ t)) = false := by simpa using h 0
      have hrec := ih (fun i => by simpa using h (i + 1))
      simp [goDel, h0, hrec]

theorem goDel_id {p l : Chars} (h : containsL p l = false) : goDel p 0 l = l := by
  have := goDel_append (p := p) (a := l) (t := [])
    (fun i => by simpa using containsBy_drop_false h i)
  simpa [goDel] using this

/-! ### Helper lemmas: the signature scanner -/

theorem goStrip_append {kw a t : Chars} (h : ∀ i, matchAt kw ((a.drop i) ++ t) = false) :
    goStrip kw 0 (a ++ t) = a ++ goStrip kw 0 t := by
  induction a with
  | nil => rfl
  | cons c a' ih =>
      have h0 : matchAt kw (c :: (a' ++ t)) = false := by simpa using h 0
      have hrec := ih (fun i => by simpa using h (i + 1))
      simp only [matchAt, Bool.and_eq_false_iff] at h0
      simp only [List.cons_append, goStrip]
      cases hc : (c == '\n') with
      | false => simp [hc, hrec]
      | true =>
          have hnone : sigTailLen kw (a' ++ t) = none := by
            rcases h0 with h0 | h0
            · rw [hc] at h0
              cases h0
            · cases hs : sigTailLen kw (a' ++ t) with
              | none => rfl
              | some k => rw [hs] at h0; cases h0
          simp [hc, hnone, hrec]

theorem goStrip_id {kw l : Chars} (h : ∀ i, matchAt kw (l.drop i) = false) :
    goStrip kw 0 l = l := by
  have := @goStrip_append kw l [] (fun i => by simpa using h i)
  simpa [goStrip] using this

theorem matchAt_false_of_contains {kw l : Chars} (h : containsCI kw l = false) :
    ∀ i, matchAt kw (l.drop i) = false := by
  intro i
  cases hd : l.drop i with
  | nil => rfl
  | cons c rest =>
      have hr : l.drop (i + 1) = rest := drop_cons_of_drop hd
      have hpfx : isPfxBy chEqCI kw rest = false := by
        have := containsBy_drop_false (e := chEqCI) h (i + 1)
        rwa [hr] at this
      simp [matchAt, sigTailLen, isPfxCI, hpfx]

theorem noMatch_append {kw a t : Chars} (ha : containsCI kw a = false)
    (hkw : kw.all (fun c => c.toLower != '\n') = true)
    (ht : matchAt kw t = false)
    (ht2 : t = [] ∨ t.head? = some '\n') :
    ∀ i, matchAt kw ((a.drop i) ++ t) = false := by
  intro i
  cases hd : a.drop i with
  | nil => simpa using ht
  | cons c rest =>
      have hr : a.drop (i + 1) = rest := drop_cons_of_drop hd
      have hnone : sigTailLen kw (rest ++ t) = none := by
        cases hpfx : isPfxCI kw (rest ++ t) with
        | false => simp [sigTailLen, hpfx]
        | true =>
            exfalso
            by_cases hle : kw.length ≤ rest.length
            · have : isPfxBy chEqCI kw rest = true := pfxBy_of_append hpfx hle
              have hcon := containsBy_drop_false (e := chEqCI) ha (i + 1)
              rw [hr] at hcon
              rw [hcon] at this
              cases this
            · have hdrop : isPfxBy chEqCI (kw.drop rest.length) t = true :=
                pfxBy_append_drop hpfx
              have hne : kw.drop rest.length ≠ [] := by
                intro hnil
                have := List.drop_eq_nil_iff.mp hnil
                omega
              obtain ⟨k, ks, hk⟩ := List.exists_cons_of_ne_nil hne
              have hkmem : k ∈ kw := by
                have : k ∈ kw.drop rest.length := by simp [hk]
                exact List.mem_of_mem_drop this
              have hknl : k.toLower ≠ '\n' := by
                have := List.all_eq_true.mp hkw k hkmem
                simpa using this
              rcases ht2 with hte | hth
              · subst hte
                rw [hk] at hdrop
                simp [isPfxBy] at hdrop
              · obtain ⟨t', ht'⟩ : ∃ t', t = '\n' :: t' := by
                  cases t with
                  | nil => simp at hth
                  | cons x xs =>
                      refine ⟨xs, ?_⟩
                      simp at hth
                      rw [hth]
                rw [hk, ht'] at hdrop
                simp only [isPfxBy, chEqCI, Bool.and_eq_true, beq_iff_eq] at hdrop
                exact hknl (by simpa using hdrop.1)
      simp [matchAt, hnone]

/-! ### Helper lemmas: occurrence counting across an append -/

theorem pfxCI_drop_false {kw t : Chars}
    (hkw : kw.all (fun c => c.toLower != '\n') = true)
    (ht2 : t = [] ∨ t.head? = some '\n') {m : Nat} (hm : m < kw.length) :
    isPfxBy chEqCI (kw.drop m) t = false := by
  have hne : kw.drop m ≠ [] := by
    intro hnil
    have := List.drop_eq_nil_iff.mp hnil
    omega
  obtain ⟨k, ks, hk⟩ := List.exists_cons_of_ne_nil hne
  have hkmem : k ∈ kw := by
    have : k ∈ kw.drop m := by simp [hk]
    exact List.mem_of_mem_drop this
  have hknl : k.toLower ≠ '\n' := by
    have := List.all_eq_true.mp hkw k hkmem
    simpa using this
  rcases ht2 with hte | hth
  · subst hte
    rw [hk]
    simp [isPfxBy]
  · obtain ⟨t', ht'⟩ : ∃ t', t = '\n' :: t' := by
      cases t with
      | nil => simp at hth
      | cons x xs =>
          refine ⟨xs, ?_⟩
          simp at hth
          rw [hth]

    rw [hk, ht']
    have hnlow : ('\n' : Char).toLower = '\n' := by decide
    simp only [isPfxBy, chEqCI, hnlow, Bool.and_eq_false_iff]
    left
    simpa using hknl

theorem pfxCI_append_head_eq {kw t : Chars}
    (hkw : kw.all (fun c => c.toLower != '\n') = true)
    (ht2 : t = [] ∨ t.head? = some '\n') (x : Chars) :
    isPfxBy chEqCI kw (x ++ t) = isPfxBy chEqCI kw x := by
  by_cases hle : kw.length ≤ x.length
  · cases hv : isPfxBy chEqCI kw x with
    | true => exact pfxBy_append_of t hv
    | false =>
        cases hw : isPfxBy chEqCI kw (x ++ t) with
        | false => rfl
        | true =>
            have := pfxBy_of_append hw hle
            rw [hv] at this
            cases this
  · have hxf : isPfxBy chEqCI kw x = false := pfxBy_false_of_lt (by omega)
    rw [hxf]
    cases hw : isPfxBy chEqCI kw (x ++ t) with
    | false => rfl
    | true =>
        have hdrop := pfxBy_append_drop hw
        have := pfxCI_drop_false hkw ht2 (m := x.length) (by omega)
        rw [this] at hdrop
        cases hdrop

theorem countOccCI_append {kw a t : Chars} (hne : kw ≠ [])
    (hkw : kw.all (fun c => c.toLower != '\n') = true)
    (ht2 : t = [] ∨ t.head? = some '\n') :
    countOccCI kw (a ++ t) = countOccCI kw a + countOccCI kw t := by
  induction a with
  | nil =>
      have hpe : isPfxBy chEqCI kw [] = false := by
        cases kw with
        | nil => exact absurd rfl hne
        | cons k ks => rfl
      simp [countOccCI, countOccBy, hpe]
  | cons c a' ih =>
      have hhead := pfxCI_append_head_eq hkw ht2 (c :: a')
      show countOccBy chEqCI kw ((c :: a') ++ t) =
        countOccBy chEqCI kw (c :: a') + countOccBy chEqCI kw t
      rw [List.cons_append]
      show (if isPfxBy chEqCI kw (c :: (a' ++ t)) then 1 else 0) +
          countOccBy chEqCI kw (a' ++ t) = _
      rw [show (c : Char) :: (a' ++ t) = (c :: a') ++ t from rfl, hhead]
      rw [show countOccBy chEqCI kw (a' ++ t) = countOccCI kw (a' ++ t) from rfl, ih]
      show _ = (if isPfxBy chEqCI kw (c :: a') then 1 else 0) +
        countOccBy chEqCI kw a' + countOccBy chEqCI kw t
      unfold countOccCI
      omega

/-! ### Helper lemmas: the collapse scanners -/

theorem collapseNl_cons (c : Char) (rest : Chars) :
    collapseNl (c :: rest) =
      if nlFireAt (c :: rest) = true then collapseNl rest else c :: collapseNl rest := by
  by_cases h : (c == '\n' && isPfxL (strL "\n\n") rest) = true <;>
    simp [collapseNl, nlFireAt, h]

theorem collapseNl_length (l : Chars) : (collapseNl l).length ≤ l.length := by
  induction l with
  | nil => simp [collapseNl]
  | cons c rest ih =>
      rw [collapseNl_cons]
      by_cases h : nlFireAt (c :: rest) = true <;> simp [h] <;> omega

theorem collapseNl_fix_noFire {l : Chars} (h : collapseNl l = l) :
    ∀ i, nlFireAt (l.drop i) = false := by
  induction l with
  | nil => intro i; simp [nlFireAt]
  | cons c rest ih =>
      cases hf : nlFireAt (c :: rest) with
      | true =>
          exfalso
          rw [collapseNl_cons, if_pos (by rw [hf])] at h
          have h1 := collapseNl_length rest
          have h2 := congrArg List.length h
          simp at h2
          omega
      | false =>
          have h2 : collapseNl rest = rest := by
            rw [collapseNl_cons, if_neg (by simp [hf])] at h
            exact (List.cons.injEq _ _ _ _).mp h |>.2
          intro i
          cases i with
          | zero => exact hf
          | succ j => simpa using ih h2 j

theorem collapseNl_append {a t : Chars} (h : ∀ i, nlFireAt ((a.drop i) ++ t) = false) :
    collapseNl (a ++ t) = a ++ collapseNl t := by
  induction a with
  | nil => rfl
  | cons c a' ih =>
      have h0 : nlFireAt (c :: (a' ++ t)) = false := by simpa using h 0
      rw [List.cons_append, collapseNl_cons, if_neg (by simp [h0])]
      rw [ih (fun i => by simpa using h (i + 1))]
      rfl

theorem nlNoFire_append {a t : Chars} (ha : collapseNl a = a)
    (hlast : ∀ c, a.reverse.head? = some c → isWs c = false)
    (ht : nlFireAt t = false) :
    ∀ i, nlFireAt ((a.drop i) ++ t) = false := by
  intro i
  cases hd : a.drop i with
  | nil => simpa using ht
  | cons c rest =>
      cases hc : (c == '\n') with
      | false => simp [nlFireAt, hc]
      | true =>
          cases rest with
          | nil =>
              exfalso
              have hl := last_of_drop_single hd
              have hws := hlast c hl
              have hcv : c = '\n' := by simpa using hc
              rw [hcv] at hws
              simp [isWs] at hws
          | cons d rest2 =>
              cases hdc : (d == '\n') with
              | false =>
                  have hd3 : ¬ d = '\n' := by simpa using hdc
                  have hfalse : isPfxL (strL "\n\n") (d :: (rest2 ++ t)) = false := by
                    show isPfxBy chEq ['\n', '\n'] (d :: (rest2 ++ t)) = false
                    simp only [isPfxBy, chEq, Bool.and_eq_false_iff, beq_eq_false_iff_ne]
                    exact Or.inl (fun hh => hd3 hh.symm)
                  simp [nlFireAt, hfalse]
              | true =>
                  cases rest2 with
                  | nil =>
                      exfalso
                      have hd2 : a.drop (i + 1) = [d] := drop_cons_of_drop hd
                      have hl := last_of_drop_single hd2
                      have hws := hlast d hl
                      have hdv : d = '\n' := by simpa using hdc
                      rw [hdv] at hws
                      simp [isWs] at hws
                  | cons x rest3 =>
                      have hfa := collapseNl_fix_noFire ha i
                      rw [hd] at hfa
                      simp only [nlFireAt, show strL "\n\n" = ['\n', '\n'] from rfl,
                        isPfxL, isPfxBy, chEq, List.cons_append,
                        Bool.and_eq_false_iff, Bool.and_eq_true] at hfa ⊢
                      rcases hfa with hfa | hfa
                      · exact Or.inl hfa
                      · right
                        simpa using hfa

theorem collapseSp_cons (c : Char) (rest : Chars) :
    collapseSp (c :: rest) =
      if spFireAt (c :: rest) = true then collapseSp rest else c :: collapseSp rest := by
  by_cases h : (c == ' ' && isPfxL (strL " ") rest) = true <;>
    simp [collapseSp, spFireAt, h]

theorem collapseSp_length (l : Chars) : (collapseSp l).length ≤ l.length := by
  induction l with
  | nil => simp [collapseSp]
  | cons c rest ih =>
      rw [collapseSp_cons]
      by_cases h : spFireAt (c :: rest) = true <;> simp [h] <;> omega

theorem collapseSp_fix_noFire {l : Chars} (h : collapseSp l = l) :
    ∀ i, spFireAt (l.drop i) = false := by
  induction l with
  | nil => intro i; simp [spFireAt]
  | cons c rest ih =>
      cases hf : spFireAt (c :: rest) with
      | true =>
          exfalso
          rw [collapseSp_cons, if_pos (by rw [hf])] at h
          have h1 := collapseSp_length rest
          have h2 := congrArg List.length h
          simp at h2
          omega
      | false =>
          have h2 : collapseSp rest = rest := by
            rw [collapseSp_cons, if_neg (by simp [hf])] at h
            exact (List.cons.injEq _ _ _ _).mp h |>.2
          intro i
          cases i with
          | zero => exact hf
          | succ j => simpa using ih h2 j

theorem collapseSp_append {a t : Chars} (h : ∀ i, spFireAt ((a.drop i) ++ t) = false) :
    collapseSp (a ++ t) = a ++ collapseSp t := by
  induction a with
  | nil => rfl
  | cons c a' ih =>
      have h0 : spFireAt (c :: (a' ++ t)) = false := by simpa using h 0
      rw [List.cons_append, collapseSp_cons, if_neg (by simp [h0])]
      rw [ih (fun i => by simpa using h (i + 1))]
      rfl

theorem spNoFire_append {a t : Chars} (ha : collapseSp a = a)
    (ht : spFireAt t = false) (ht2 : isPfxL (strL " ") t = false) :
    ∀ i, spFireAt ((a.drop i) ++ t) = false := by
  intro i
  cases hd : a.drop i with
  | nil => simpa using ht
  | cons c rest =>
      cases hc : (c == ' ') with
      | false => simp [spFireAt, hc]
      | true =>
          cases rest with
          | nil => simp [spFireAt, ht2]
          | cons d rest2 =>
              have hfa := collapseSp_fix_noFire ha i
              rw [hd] at hfa
              simp only [spFireAt, show strL " " = [' '] from rfl, isPfxL, isPfxBy,
                chEq, List.cons_append, Bool.and_eq_false_iff] at hfa ⊢
              rcases hfa with hfa | hfa
              · exact Or.inl hfa
              · right
                simpa using hfa

/-! ### Helper lemmas: stripping -/

theorem dropWhile_fix_head {p : Char → Bool} {c : Char} {l : Chars}
    (h : (c :: l).dropWhile p = c :: l) : p c = false := by
  cases hpc : p c with
  | false => rfl
  | true =>
      exfalso
      rw [List.dropWhile_cons, if_pos (by simp [hpc])] at h
      have h1 := (List.dropWhile_suffix (l := l) p).length_le
      have h2 := congrArg List.length h
      simp at h2
      omega

theorem dropWhile_append_fix {l t : Chars} (hne : l ≠ []) (h : l.dropWhile isWs = l) :
    (l ++ t).dropWhile isWs = l ++ t := by
  cases l with
  | nil => exact absurd rfl hne
  | cons c l' =>
      have hc := dropWhile_fix_head h
      simp [List.dropWhile_cons, hc]

theorem pyStrip_fix {l : Chars} (h1 : l.dropWhile isWs = l)
    (h2 : l.reverse.dropWhile isWs = l.reverse) : pyStripL l = l := by
  simp [pyStripL, h1, h2]

theorem pyStrip_append_fix {b t : Chars} (hbne : b ≠ []) (h1 : b.dropWhile isWs = b)
    (htne : t ≠ []) (h3 : t.reverse.dropWhile isWs = t.reverse) :
    pyStripL (b ++ t) = b ++ t := by
  unfold pyStripL
  rw [dropWhile_append_fix hbne h1]
  rw [List.reverse_append]
  rw [dropWhile_append_fix (by simpa using htne) h3]
  rw [← List.reverse_append, List.reverse_reverse]

theorem pyStrip_append_nl {b : Chars} (hne : b ≠ []) (h1 : b.dropWhile isWs = b)
    (h2 : b.reverse.dropWhile isWs = b.reverse) :
    pyStripL (b ++ ['\n']) = b := by
  unfold pyStripL
  rw [dropWhile_append_fix hne h1]
  rw [List.reverse_append]
  have : ([('\n' : Char)].reverse ++ b.reverse).dropWhile isWs = b.reverse := by
    simp only [List.reverse_cons, List.reverse_nil, List.nil_append, List.singleton_append]
    rw [List.dropWhile_cons, if_pos (by decide)]
    exact h2
  rw [this, List.reverse_reverse]

theorem pyStrip_wrap_nl {s : Chars} (hne : s ≠ []) (h1 : s.dropWhile isWs = s)
    (h2 : s.reverse.dropWhile isWs = s.reverse) :
    pyStripL ('\n' :: (s ++ ['\n'])) = s := by
  have hstep : ('\n' :: (s ++ ['\n'])).dropWhile isWs = s ++ ['\n'] := by
    rw [List.dropWhile_cons, if_pos (by decide)]
    exact dropWhile_append_fix hne h1
  unfold pyStripL
  rw [hstep, List.reverse_append]
  have : ([('\n' : Char)].reverse ++ s.reverse).dropWhile isWs = s.reverse := by
    simp only [List.reverse_cons, List.reverse_nil, List.nil_append, List.singleton_append]
    rw [List.dropWhile_cons, if_pos (by decide)]
    exact h2
  rw [this, List.reverse_reverse]

/-! ### C1 — same provider on both tiers -/

/-- C1: with `TIER1_LLM_PROVIDER` and `TIER2_LLM_PROVIDER` naming the same
local provider with a valid base URL and model, `_init_provider_configs`
skips tier-2 initialization without aliasing any state, so no `tier2_*`
attribute exists; a tier-2 dispatcher call then raises `AttributeError`
reading `tier2_model` and is converted to `(None, False)`, even though the
identical tier-1 call succeeds against the configured endpoint and model.
The claim's "a tier-2 dispatcher call targets the same endpoint and model as
a tier-1 call, returning a usable result whenever tier 1 would" is exactly
what the code fails to do. -/
theorem claim1_same_provider_tier2_call_fails :
    initProcessor envC1 = .ok stC1 ∧
    (tierAttrs stC1 2).model = none ∧
    callTierLlm stC1 1 .throws locGood true =
      (some (.obj [(strL "summary", .str (strL "ok"))]), true) ∧
    callTierLlm stC1 2 .throws locGood true = (none, false) :=
  ⟨rfl, rfl, rfl, rfl⟩

/-! ### C5 — the dispatcher boundary catches every exception -/

/-- C5: every exception raised inside a dispatcher call is caught at the
`_call_tier_llm` boundary and converted to `(None, False)`: the boundary
maps every raising body to that pair (first conjunct), the local path
converts its own network/timeout exceptions to `(None, False)` before they
even reach the boundary (second conjunct), and a raising ApiBased transport
is likewise converted at the boundary (third conjunct).  `callTierLlm`
always returns a pair — it has no raising outcome at all. -/
theorem claim5_dispatcher_boundary :
    (∀ (st : ProcState) (tier : Nat) (apiNet : ApiOutcome) (localNet : LocalOutcome)
        (requestsOk : Bool) (e : Chars),
        callTierBody st tier apiNet localNet requestsOk = .error e →
        callTierLlm st tier apiNet localNet requestsOk = (none, false)) ∧
    (∀ (attrs : TierAttrs) (b m : Chars), attrs.base_url = some b → attrs.model = some m →
        callLocalService attrs true .throws = .ok (none, false)) ∧
    (∀ (st : ProcState) (tier : Nat) (localNet : LocalOutcome) (requestsOk : Bool),
        (tierAttrs st tier).model.isSome = true → (tierAttrs st tier).api_key.isSome = true →
        callTierLlm st tier .throws localNet requestsOk = (none, false)) := by
  refine ⟨?_, ?_, ?_⟩
  · intro st tier apiNet localNet requestsOk e h
    simp [callTierLlm, h]
  · intro attrs b m hb hm
    simp [callLocalService, hb, hm]
  · intro st tier localNet requestsOk hm hk
    obtain ⟨mv, hmv⟩ := Option.isSome_iff_exists.mp hm
    obtain ⟨kv, hkv⟩ := Option.isSome_iff_exists.mp hk
    have hbody : callTierBody st tier .throws localNet requestsOk =
        callApiService (tierAttrs st tier) .throws := by
      simp [callTierBody, hmv, hkv]
    cases hcl : (tierAttrs st tier).client with
    | none => simp [callTierLlm, hbody, callApiService, hcl]
    | some c => cases c with
      | generative => simp [callTierLlm, hbody, callApiService, hcl]

/-- C5 witness: a tier with no attributes at all makes the body raise
`AttributeError`, and the boundary reports `(None, False)`. -/
theorem claim5_witness :
    callTierLlm stC1 3 ApiOutcome.throws locGood true = (none, false) :=
  claim5_dispatcher_boundary.1 stC1 3 .throws locGood true
    (strL "AttributeError: the tier model attribute was never set") rfl

/-! ### C4 — malformed JSON degrades to a raw-text payload -/

/-- C4 counterexample: a transport call on the ApiBased path that succeeds
with an empty response text — the empty string is not valid JSON — yields
`(None, False)` rather than `({"content": ""}, True)`. -/
theorem claim4_counterexample_empty_api_response :
    parseJson [] = none ∧
    callApiService apiAttrs (.replies []) = .ok (none, false) :=
  ⟨rfl, rfl⟩

/-- C4 (amended): when the transport succeeded and the content is not valid
JSON, the dispatcher returns the raw text wrapped as `({"content": text},
True)` — on the ApiBased path for every non-empty response text (after
stripping and fence cleanup), and on the LocalService path for every
extracted string content; the single exception is an empty ApiBased
response text, which yields `(None, False)`. -/
theorem claim4_malformed_json_wrapped :
    (∀ (attrs : TierAttrs) (text : Chars), attrs.client = some .generative →
        text ≠ [] → parseJson (cleanFences (pyStripL text)) = none →
        callApiService attrs (.replies text) =
          .ok (some (.obj [(strL "content", .str (cleanFences (pyStripL text)))]), true)) ∧
    (∀ (attrs : TierAttrs) (b m : Chars) (bv : JValue) (s : Chars),
        attrs.base_url = some b → attrs.model = some m →
        extractMsgContent bv = some s → parseJson s = none →
        callLocalService attrs true (.resp 200 (some bv)) =
          .ok (some (.obj [(strL "content", .str s)]), true)) ∧
    (∀ attrs : TierAttrs, attrs.client = some ClientKind.generative →
        callApiService attrs (.replies []) = .ok (none, false)) := by
  refine ⟨?_, ?_, ?_⟩
  · intro attrs text hcl hne hparse
    have hempty : text.isEmpty = false := by
      cases text with
      | nil => exact absurd rfl hne
      | cons c l => rfl
    simp [callApiService, hcl, hempty, hparse]
  · intro attrs b m bv s hb hm hext hparse
    simp [callLocalService, hb, hm, hext, hparse]
  · intro attrs hcl
    simp [callApiService, hcl]

/-- C4 witness: `hello` is not JSON — both paths wrap it with `ok = True`. -/
theorem claim4_witness :
    callApiService apiAttrs (.replies (strL "hello")) =
      .ok (some (.obj [(strL "content", .str (strL "hello"))]), true) ∧
    callLocalService stC1.tier1 true
        (.resp 200 (some (.obj [(strL "message",
          .obj [(strL "content", .str (strL "hello"))])]))) =
      .ok (some (.obj [(strL "content", .str (strL "hello"))]), true) := by
  constructor
  · exact claim4_malformed_json_wrapped.1 apiAttrs (strL "hello") rfl
      (by decide) rfl
  · exact claim4_malformed_json_wrapped.2.1 stC1.tier1 _ _ _ _ rfl rfl rfl rfl

/-! ### C2 — the body-text fallback gate -/

/-- C2 counterexample: the stripped body text exceeds 300 characters and the
tier-2 dispatcher call succeeds (`ok = true`) with a well-formed JSON
payload — but the payload carries no `content` key, so the job description
stays `None`; success alone does not make the returned payload the job
description. -/
theorem claim2_counterexample_ok_without_content :
    resC2.2 = true ∧ 300 < (pyStripL bodyC2).length ∧
    fallbackJobDescription (some bodyC2) resC2 = none :=
  ⟨rfl, by decide, rfl⟩

/-- C2 (amended): when the body text is truthy and its stripped length
exceeds 300, the first 3000 characters are submitted under the fixed
instruction (fourth conjunct); the dispatcher's payload becomes the job
description only when the call succeeded and the payload carries a truthy
`content` entry (first conjunct); on a failed call, or a successful call
whose payload lacks `content`, the description stays `None` (second and
third conjuncts). -/
theorem claim2_fallback_content_gate :
    (∀ (bt : Chars) (kvs : List (Chars × JValue)) (v : JValue),
        bt ≠ [] → 300 < (pyStripL bt).length →
        jLookup (strL "content") kvs = some v → pyTruthy v = true →
        fallbackJobDescription (some bt) (some (.obj kvs), true) = some v) ∧
    (∀ (bt : Chars) (payload : Option JValue),
        fallbackJobDescription (some bt) (payload, false) = none) ∧
    (∀ (bt : Chars) (kvs : List (Chars × JValue)),
        jLookup (strL "content") kvs = none →
        fallbackJobDescription (some bt) (some (.obj kvs), true) = none) ∧
    (∀ bt : Chars, fallbackUserPrompt bt =
        strL "Extract the job description and requirements from this webpage text:\n\n" ++
          bt.take 3000) := by
  refine ⟨?_, ?_, ?_, fun bt => rfl⟩
  · intro bt kvs v hne hlen hlook htv
    have hempty : bt.isEmpty = false := by
      cases bt with
      | nil => exact absurd rfl hne
      | cons c l => rfl
    simp [fallbackJobDescription, hempty, hlen, hlook, htv]
  · intro bt payload
    simp only [fallbackJobDescription]
    split
    · rcases payload with _ | v
      · rfl
      · cases v <;> rfl
    · rfl
  · intro bt kvs hlook
    simp only [fallbackJobDescription]
    split
    · simp [hlook]
    · rfl

/-- C2 witness: a truthy `content` entry on a successful call is accepted. -/
theorem claim2_witness :
    fallbackJobDescription (some bodyC2)
      (some (.obj [(strL "content", .str (strL "The role"))]), true) =
      some (.str (strL "The role")) :=
  claim2_fallback_content_gate.1 bodyC2 _ _ (by decide) (by decide) rfl rfl

/-! ### C3 — record fields and sentinels -/

/-- C3 counterexample: a successful job-info extraction returns the LLM's
dict verbatim; with a payload lacking `company`, the returned JobInfo record
has no `company` key at all — the record does not contain every structured
field with a sentinel default. -/
theorem claim3_counterexample_jobinfo_missing_key :
    llmExtractJobInfo resC2 = .ok (.obj [(strL "job_title", .str (strL "Engineer"))]) ∧
    jLookup (strL "company") [(strL "job_title", JValue.str (strL "Engineer"))] = none :=
  ⟨rfl, rfl⟩

/-- C3 (amended): the ResumeInfo record always contains all eleven
structured keys (first conjunct), with the explicit defaults `Candidate`,
`candidate@email.com`, `Not specified`, `Professional`, `""`, `0` and `[]`
substituted for omitted fields (second conjunct); the JobInfo record is
returned exactly as the LLM produced it and may omit keys (third conjunct);
scalar-or-list normalization — first list element, string coercion of truthy
non-string scalars — happens in folder naming (fourth and fifth
conjuncts). -/
theorem claim3_records_and_defaults :
    (∀ (rt : Chars) (kvs : List (Chars × JValue)) (info : List (Chars × JValue)),
        llmExtractResumeInfo rt (some (.obj kvs), true) = .ok info →
        ∀ k ∈ resumeKeys, (jLookup k info).isSome = true) ∧
    (∀ rt : Chars, llmExtractResumeInfo rt (some (.obj [(strL "z", .num 1 0)]), true) =
        .ok [(strL "name", .str (strL "Candidate")),
             (strL "email", .str (strL "candidate@email.com")),
             (strL "phone", .str (strL "Not specified")),
             (strL "location", .str (strL "Not specified")),
             (strL "title", .str (strL "Professional")),
             (strL "experience_summary", .str []),
             (strL "years_experience", .num 0 0),
             (strL "key_skills", .arr []),
             (strL "education", .str (strL "Not specified")),
             (strL "certifications", .arr []),
             (strL "full_content", .str rt)]) ∧
    (∀ kvs : List (Chars × JValue), kvs ≠ [] →
        llmExtractJobInfo (some (.obj kvs), true) = .ok (.obj kvs)) ∧
    (∀ (s : Chars) (rest : List JValue) (d : Chars),
        resolveNameField (some (.arr (.str s :: rest))) d = .ok s) ∧
    (∀ (m e : Int) (d : Chars), m ≠ 0 →
        resolveNameField (some (.num m e)) d = .ok (pyStr (.num m e))) := by
  refine ⟨?_, fun rt => rfl, ?_, fun s rest d => rfl, ?_⟩
  · intro rt kvs info h
    cases kvs with
    | nil => simp [llmExtractResumeInfo, pyTruthy] at h
    | cons p rest =>
        simp only [llmExtractResumeInfo, pyTruthy, List.isEmpty_cons, Bool.not_false,
          if_true, Except.ok.injEq] at h
        subst h
        intro k hk
        fin_cases hk <;> rfl
  · intro kvs hne
    cases kvs with
    | nil => exact absurd rfl hne
    | cons p rest => simp [llmExtractJobInfo, pyTruthy]
  · intro m e d hm
    have : (m != 0) = true := by simpa using hm
    simp [resolveNameField, pyTruthy, this]

/-- C3 witness: the job record passes through verbatim, and a truthy numeric
company is coerced by `str()`. -/
theorem claim3_witness :
    llmExtractJobInfo (some (.obj [(strL "a", .num 1 0)]), true) =
      .ok (.obj [(strL "a", .num 1 0)]) ∧
    resolveNameField (some (.num 7 0)) (strL "Unknown_Company") = .ok (strL "7") := by
  constructor
  · exact claim3_records_and_defaults.2.2.1 _ (List.cons_ne_nil _ _)
  · exact claim3_records_and_defaults.2.2.2.2 7 0 _ (by decide)

/-! ### C8 — descriptor immutability and the connection test -/

/-- C8 counterexample: the tier-1 local connection test replaces the
descriptor's model when the configured model is not advertised: with
`llama3` configured and only `mistral` advertised, the descriptor leaves the
test carrying model `mistral` — a later operation changed the field the
descriptor was built with from configuration. -/
theorem claim8_counterexample_model_swapped :
    testLocalConnection descC8 tagsOnlyMistral =
      .ok ⟨strL "http://localhost:11434", .str (strL "mistral")⟩ ∧
    ¬ (JValue.str (strL "mistral") = descC8.model) := by
  refine ⟨rfl, ?_⟩
  intro h
  have h2 : JValue.str (strL "mistral") = JValue.str (strL "llama3") := h
  injection h2 with h3
  exact absurd h3 (by decide)

/-- C8 (amended): the connection test never changes the base URL, and it
changes the model exactly when the configured model is not among the
advertised names and at least one name is advertised — in which case the
first advertised name replaces it; otherwise every field is preserved. -/
theorem claim8_descriptor_after_test :
    ∀ (a a2 : LocalT1) (probe : TagsOutcome),
      testLocalConnection a probe = .ok a2 →
      a2.base_url = a.base_url ∧
      (a2.model = a.model ∨
        ∃ names, probeNames probe = some names ∧
          pyMem a.model names = false ∧ names.head? = some a2.model) := by
  intro a a2 probe h
  cases probe with
  | throws => exact absurd h (by simp [testLocalConnection])
  | resp status body =>
      by_cases hs : (status == 200) = true
      · cases body with
        | none => exact absurd h (by simp [testLocalConnection, hs])
        | some bv =>
            cases htn : tagsNames bv with
            | none => exact absurd h (by simp [testLocalConnection, hs, htn])
            | some names =>
                cases hm : pyMem a.model names with
                | true =>
                    have ha : a2 = a := by
                      have := h
                      simp [testLocalConnection, hs, htn, hm] at this
                      exact this.symm
                    subst ha
                    exact ⟨rfl, Or.inl rfl⟩
                | false =>
                    cases names with
                    | nil =>
                        have ha : a2 = a := by
                          have := h
                          simp [testLocalConnection, hs, htn, hm] at this
                          exact this.symm
                        subst ha
                        exact ⟨rfl, Or.inl rfl⟩
                    | cons n rest =>
                        have ha : a2 = ⟨a.base_url, n⟩ := by
                          have := h
                          simp [testLocalConnection, hs, htn, hm] at this
                          exact this.symm
                        subst ha
                        refine ⟨rfl, Or.inr ⟨n :: rest, ?_, hm, rfl⟩⟩
                        simp [probeNames, hs, htn]
      · exact absurd h (by simp [testLocalConnection, hs])

/-! ### C6 — fence stripping -/

theorem c6_cond {p s t : Chars} (hs : containsL p s = false)
    {q : Char} {ps : Chars} (hp : p = q :: ps) (hq : (q == '\n') = false)
    (hmt : ∀ m, m < p.length → isPfxL (p.drop m) t = false) :
    ∀ i, isPfxL p ((('\n' :: s).drop i) ++ t) = false := by
  intro i
  cases i with
  | zero =>
      subst hp
      show isPfxBy chEq (q :: ps) ('\n' :: (s ++ t)) = false
      simp [isPfxBy, chEq, hq]
  | succ j =>
      show isPfxBy chEq p ((s.drop j) ++ t) = false
      by_cases hle : p.length ≤ (s.drop j).length
      · cases hv : isPfxBy chEq p ((s.drop j) ++ t) with
        | false => rfl
        | true =>
            have h2 := pfxBy_of_append hv hle
            have hcon := containsBy_drop_false hs j
            rw [hcon] at h2
            cases h2
      · cases hv : isPfxBy chEq p ((s.drop j) ++ t) with
        | false => rfl
        | true =>
            have hd := pfxBy_append_drop hv
            have h3 : isPfxBy chEq (p.drop (s.drop j).length) t = false :=
              hmt (s.drop j).length (by omega)
            rw [h3] at hd
            cases hd

/-- C6 counterexample: a well-formed JSON object whose string value contains
a triple backtick: wrapped in a ` ```json ` fence and fed through the
dispatcher's fence cleanup, the parsed payload differs from the payload of
the unwrapped JSON — `replace` deletes the inner backticks too, so
fence-stripping is lossy. -/
theorem claim6_counterexample_lossy_fences :
    parseJson (cleanFences wrapC6) = some (.obj [(strL "a", .str (strL "xy"))]) ∧
    parseJson jsonC6 = some (.obj [(strL "a", .str (strL "x```y"))]) ∧
    parseJson (cleanFences wrapC6) ≠ parseJson jsonC6 := by
  refine ⟨rfl, rfl, ?_⟩
  intro h
  have h4 : some (JValue.obj [(strL "a", JValue.str (strL "xy"))]) =
      some (JValue.obj [(strL "a", JValue.str (strL "x```y"))]) :=
    (show parseJson (cleanFences wrapC6) =
        some (JValue.obj [(strL "a", JValue.str (strL "xy"))]) from rfl).symm.trans
      (h.trans (show parseJson jsonC6 =
        some (JValue.obj [(strL "a", JValue.str (strL "x```y"))]) from rfl))
  have h5 := congrArg (fun o => match o with
    | some (JValue.obj ((_, JValue.str s) :: _)) => s
    | _ => ([] : Chars)) h4
  simp only [] at h5
  exact absurd h5 (by decide)

/-- C6 (amended): for a well-formed JSON text containing no triple backtick,
with no leading or trailing whitespace, wrapping it in a ` ```json ` fence
and applying the dispatcher's fence cleanup returns exactly the unwrapped
text, so the parsed payload is unchanged; and the cleanup step is idempotent
on such input.  (The counterexample shows the restriction is necessary: a
triple backtick inside the JSON is deleted by `replace`.) -/
theorem claim6_fence_strip :
    ∀ s : Chars, containsL (strL "```") s = false → s ≠ [] →
      s.dropWhile isWs = s → s.reverse.dropWhile isWs = s.reverse →
      cleanFences (strL "```json\n" ++ s ++ strL "\n```") = s ∧
      cleanFences (cleanFences (strL "```json\n" ++ s ++ strL "\n```")) =
        cleanFences (strL "```json\n" ++ s ++ strL "\n```") ∧
      parseJson (cleanFences (strL "```json\n" ++ s ++ strL "\n```")) = parseJson s := by
  intro s hs hne h1 h2
  have hs7 : containsL (strL "```json") s = false := by
    cases hv : containsL (strL "```json") s with
    | false => rfl
    | true =>
        have h3 := containsL_mono (q := strL "```") (by decide) hv
        rw [hs] at h3
        cases h3
  have hB : replaceDel (strL "```json") (strL "```json\n" ++ s ++ strL "\n```") =
      ('\n' :: s) ++ strL "\n```" := by
    have hassoc : strL "```json\n" ++ s ++ strL "\n```" =
        strL "```json" ++ (('\n' :: s) ++ strL "\n```") := by
      rw [show strL "```json\n" = strL "```json" ++ ['\n'] from rfl]
      simp [List.append_assoc]
    rw [hassoc]
    show goDel (strL "```json") 0 _ = _
    rw [goDel_head (by decide)]
    have hcond := c6_cond (p := strL "```json") (t := strL "\n```") hs7 rfl
      (by decide) (by decide)
    have := goDel_append (p := strL "```json") (a := ('\n' :: s)) (t := strL "\n```") hcond
    rw [show ('\n' :: s) ++ strL "\n```" = (('\n' :: s) ++ strL "\n```") from rfl]
    rw [this]
    rw [show goDel (strL "```json") 0 (strL "\n```") = strL "\n```" from rfl]
  have hC : replaceDel (strL "```") (('\n' :: s) ++ strL "\n```") =
      '\n' :: (s ++ ['\n']) := by
    show goDel (strL "```") 0 _ = _
    have hcond := c6_cond (p := strL "```") (t := strL "\n```") hs rfl
      (by decide) (by decide)
    have := goDel_append (p := strL "```") (a := ('\n' :: s)) (t := strL "\n```") hcond
    rw [this]
    rw [show goDel (strL "```") 0 (strL "\n```") = ['\n'] from rfl]
    simp
  have hA : isPfxL (strL "```json") (strL "```json\n" ++ s ++ strL "\n```") = true := by
    have hb : isPfxBy chEq (strL "```json") (strL "```json\n") = true := by decide
    exact pfxBy_append_of _ (pfxBy_append_of _ hb)
  have hclean : cleanFences (strL "```json\n" ++ s ++ strL "\n```") = s := by
    unfold cleanFences
    rw [if_pos hA]
    rw [hB, hC]
    exact pyStrip_wrap_nl hne h1 h2
  have hnp3 : isPfxL (strL "```") s = false := by
    have := containsBy_drop_false hs 0
    simpa using this
  have hnp7 : isPfxL (strL "```json") s = false := by
    cases hv : isPfxL (strL "```json") s with
    | false => rfl
    | true =>
        have h3 := pfxL_trans (q := strL "```") (by decide) hv
        rw [hnp3] at h3
        cases h3
  have hclean2 : cleanFences s = s := by
    unfold cleanFences
    rw [if_neg (by simp [hnp7]), if_neg (by simp [hnp3])]
  refine ⟨hclean, ?_, ?_⟩
  · rw [hclean, hclean2]
  · rw [hclean]

/-- C6 witness: a plain JSON object without backticks passes through the
fence cleanup unchanged and idempotently. -/
theorem claim6_witness :
    cleanFences (strL "```json\n" ++ strL "\x7b\"a\": 1\x7d" ++ strL "\n```") =
      strL "\x7b\"a\": 1\x7d" ∧
    cleanFences (cleanFences (strL "```json\n" ++ strL "\x7b\"a\": 1\x7d" ++ strL "\n```")) =
      cleanFences (strL "```json\n" ++ strL "\x7b\"a\": 1\x7d" ++ strL "\n```") ∧
    parseJson (cleanFences (strL "```json\n" ++ strL "\x7b\"a\": 1\x7d" ++ strL "\n```")) =
      parseJson (strL "\x7b\"a\": 1\x7d") :=
  claim6_fence_strip (strL "\x7b\"a\": 1\x7d") (by decide) (by decide) (by decide) (by decide)

/-! ### C10 — folder-name shape -/

theorem collapseRuns_one (d : Char) :
    collapseRuns [d] = if isRunChar d then ['_'] else [d] := rfl

theorem collapseRuns_two (d c2 : Char) (rest2 : Chars) :
    collapseRuns (d :: c2 :: rest2) =
      if isRunChar d then
        (if isRunChar c2 then collapseRuns (c2 :: rest2)
         else '_' :: collapseRuns (c2 :: rest2))
      else d :: collapseRuns (c2 :: rest2) := rfl

theorem collapseRuns_chars {l : Chars} {c : Char} (h : c ∈ collapseRuns l) :
    c = '_' ∨ (c ∈ l ∧ isRunChar c = false) := by
  induction l with
  | nil => simp [collapseRuns] at h
  | cons d rest ih =>
      cases rest with
      | nil =>
          rw [collapseRuns_one] at h
          cases hd : isRunChar d with
          | true =>
              rw [if_pos (by rw [hd])] at h
              simp at h
              exact Or.inl h
          | false =>
              rw [if_neg (by simp [hd])] at h
              simp at h
              subst h
              exact Or.inr ⟨List.mem_cons_self _ _, hd⟩
      | cons c2 rest2 =>
          rw [collapseRuns_two] at h
          cases hd : isRunChar d with
          | false =>
              rw [if_neg (by simp [hd])] at h
              rcases List.mem_cons.mp h with h | h
              · subst h
                exact Or.inr ⟨List.mem_cons_self _ _, hd⟩
              · rcases ih h with h | ⟨hm, hr⟩
                · exact Or.inl h
                · exact Or.inr ⟨List.mem_cons_of_mem d hm, hr⟩
          | true =>
              rw [if_pos (by rw [hd])] at h
              cases hc2 : isRunChar c2 with
              | true =>
                  rw [if_pos (by rw [hc2])] at h
                  rcases ih h with h | ⟨hm, hr⟩
                  · exact Or.inl h
                  · exact Or.inr ⟨List.mem_cons_of_mem d hm, hr⟩
              | false =>
                  rw [if_neg (by simp [hc2])] at h
                  rcases List.mem_cons.mp h with h | h
                  · exact Or.inl h
                  · rcases ih h with h | ⟨hm, hr⟩
                    · exact Or.inl h
                    · exact Or.inr ⟨List.mem_cons_of_mem d hm, hr⟩

theorem mem_pyStrip {l : Chars} {c : Char} (h : c ∈ pyStripL l) : c ∈ l := by
  unfold pyStripL at h
  rw [List.mem_reverse] at h
  have h2 := (List.dropWhile_suffix isWs).subset h
  rw [List.mem_reverse] at h2
  exact (List.dropWhile_suffix isWs).subset h2

theorem cleanNamePart_chars (s : Chars) : ∀ c ∈ cleanNamePart s, isWordChar c = true := by
  intro c hc
  unfold cleanNamePart at hc
  rcases collapseRuns_chars hc with h | ⟨hmem, hrun⟩
  · subst h
    decide
  · have h3 := mem_pyStrip hmem
    have h4 := List.mem_filter.mp h3
    have h5 := h4.2
    simp only [isRunChar, Bool.or_eq_false_iff] at hrun
    simp only [Bool.or_eq_true] at h5
    rcases h5 with (h5 | h5) | h5
    · exact h5
    · rw [hrun.1] at h5
      cases h5
    · rw [hrun.2] at h5
      cases h5

/-- C10 counterexample: a `company` that arrives as a one-element list
holding a number makes the cleaning step raise `TypeError` — no folder name
of the claimed form is produced for this job-data mapping. -/
theorem claim10_counterexample_list_company :
    createIntelligentFolderName jdC10 (strL "20251012") =
      .error (strL "TypeError: expected string or bytes-like object") := rfl

/-- C10 (amended): every successfully generated folder name has the form
`<company>_<title>_<timestamp>` with the company and title parts consisting
of word characters and underscores only and the title part at most 25
characters (first conjunct); a list-valued input is reduced to its first
element, which is used as-is — a string first element passes through, an
empty list falls back to the default, while a non-string first element makes
cleaning raise `TypeError` (second, third and the counterexample); a truthy
non-string non-list scalar is string-coerced and a falsy one replaced by the
default (fourth and fifth conjuncts). -/
theorem claim10_folder_name_shape :
    (∀ (jobData : List (Chars × JValue)) (ts folder : Chars),
        createIntelligentFolderName jobData ts = .ok folder →
        ∃ cc ct, folder = cc ++ strL "_" ++ ct ++ strL "_" ++ ts ∧
          (∀ c ∈ cc, isWordChar c = true) ∧ (∀ c ∈ ct, isWordChar c = true) ∧
          ct.length ≤ 25) ∧
    (∀ (s : Chars) (rest : List JValue) (d : Chars),
        resolveNameField (some (.arr (JValue.str s :: rest))) d = .ok s) ∧
    (∀ d : Chars, resolveNameField (some (.arr [])) d = .ok d) ∧
    (∀ (m e : Int) (d : Chars), m ≠ 0 →
        resolveNameField (some (.num m e)) d = .ok (pyStr (.num m e))) ∧
    (∀ (e : Int) (d : Chars), resolveNameField (some (.num 0 e)) d = .ok d) := by
  refine ⟨?_, fun s rest d => rfl, fun d => rfl, ?_, ?_⟩
  · intro jobData ts folder h
    cases h1 : resolveNameField (jLookup (strL "company") jobData) (strL "Unknown_Company") with
    | error e => simp [createIntelligentFolderName, h1] at h
    | ok company =>
        cases h2 : resolveNameField (jLookup (strL "job_title") jobData) (strL "Position") with
        | error e => simp [createIntelligentFolderName, h1, h2] at h
        | ok title =>
            have hf : folder = cleanNamePart company ++ strL "_" ++
                (if (cleanNamePart title).length > 25 then (cleanNamePart title).take 25
                 else cleanNamePart title) ++ strL "_" ++ ts := by
              have := h
              simp only [createIntelligentFolderName, h1, h2, Except.ok.injEq] at this
              exact this.symm
            refine ⟨cleanNamePart company, _, hf, cleanNamePart_chars _, ?_, ?_⟩
            · intro c hc
              by_cases hlen : (cleanNamePart title).length > 25
              · rw [if_pos hlen] at hc
                exact cleanNamePart_chars _ c (List.mem_of_mem_take hc)
              · rw [if_neg hlen] at hc
                exact cleanNamePart_chars _ c hc
            · by_cases hlen : (cleanNamePart title).length > 25
              · rw [if_pos hlen]
                simp [List.length_take]
              · rw [if_neg hlen]
                omega
  · intro m e d hm
    have : (m != 0) = true := by simpa using hm
    simp [resolveNameField, pyTruthy, this]
  · intro e d
    simp [resolveNameField, pyTruthy]

/-- C10 witness: a concrete job-data mapping with a messy company string and
a list-valued title produces a folder name of the claimed shape. -/
theorem claim10_witness :
    ∃ cc ct, strL "Acme_Inc_Senior_Engineer_Remote_AI_20251012" =
        cc ++ strL "_" ++ ct ++ strL "_" ++ strL "20251012" ∧
      (∀ c ∈ cc, isWordChar c = true) ∧ (∀ c ∈ ct, isWordChar c = true) ∧
      ct.length ≤ 25 :=
  claim10_folder_name_shape.1
    [(strL "company", .str (strL "Acme, Inc.")),
     (strL "job_title", .arr [.str (strL "Senior Engineer (Remote) - AI Team")])]
    (strL "20251012") (strL "Acme_Inc_Senior_Engineer_Remote_AI_20251012") (by rfl)

/-! ### C7 — resolver classification order -/

theorem noConfigMsg_has_api (provider : Chars) :
    containsL (upperL provider ++ strL "_API_KEY") (noConfigMsg provider) = true := by
  have hsplit : noConfigMsg provider =
      (strL "No valid configuration found for " ++ provider ++ strL ". Need either ") ++
        ((upperL provider ++ strL "_API_KEY") ++ (strL " or " ++
          (upperL provider ++ strL "_BASE_URL") ++ strL "/" ++
          (upperL provider ++ strL "_HOST") ++ strL " in .env file")) := by
    simp [noConfigMsg, List.append_assoc]
  rw [hsplit]
  exact containsL_surround _ _ _

theorem noConfigMsg_has_base (provider : Chars) :
    containsL (upperL provider ++ strL "_BASE_URL") (noConfigMsg provider) = true := by
  have hsplit : noConfigMsg provider =
      (strL "No valid configuration found for " ++ provider ++ strL ". Need either " ++
        (upperL provider ++ strL "_API_KEY") ++ strL " or ") ++
        ((upperL provider ++ strL "_BASE_URL") ++ (strL "/" ++
          (upperL provider ++ strL "_HOST") ++ strL " in .env file")) := by
    simp [noConfigMsg, List.append_assoc]
  rw [hsplit]
  exact containsL_surround _ _ _

theorem noConfigMsg_has_host (provider : Chars) :
    containsL (upperL provider ++ strL "_HOST") (noConfigMsg provider) = true := by
  have hsplit : noConfigMsg provider =
      (strL "No valid configuration found for " ++ provider ++ strL ". Need either " ++
        (upperL provider ++ strL "_API_KEY") ++ strL " or " ++
        (upperL provider ++ strL "_BASE_URL") ++ strL "/") ++
        ((upperL provider ++ strL "_HOST") ++ strL " in .env file") := by
    simp [noConfigMsg, List.append_assoc]
  rw [hsplit]
  exact containsL_surround _ _ _

/-- C7: in both resolver functions, a truthy API key classifies the provider
as ApiBased (first and fourth conjuncts); otherwise a truthy base URL or
host classifies it as LocalService (second and fifth conjuncts — in the
cover-letter variant the local branch defers to the connection test); and
with neither present, initialization fails with a configuration error whose
message names the API-key variable and both base-URL/host variables (third
and sixth conjuncts).  "Present" is Python truthiness: an unset variable and
an empty string both count as absent, exactly as `os.getenv(...)` feeds the
`if` chain. -/
theorem claim7_resolver_classification :
    (∀ (tier : Nat) (provider : Chars) (env : Env),
        truthyOpt (getenv env (upperL provider ++ strL "_API_KEY")) = true →
        ∃ m c, initTierConfig tier provider env =
          .ok (.apiBased ((getenv env (upperL provider ++ strL "_API_KEY")).getD []) m c)) ∧
    (∀ (tier : Nat) (provider : Chars) (env : Env),
        truthyOpt (getenv env (upperL provider ++ strL "_API_KEY")) = false →
        truthyOpt (pyOr (getenv env (upperL provider ++ strL "_BASE_URL"))
          (getenv env (upperL provider ++ strL "_HOST"))) = true →
        truthyOpt (getenv env (upperL provider ++ strL "_MODEL")) = true →
        initTierConfig tier provider env =
          .ok (.localService
            ((pyOr (getenv env (upperL provider ++ strL "_BASE_URL"))
              (getenv env (upperL provider ++ strL "_HOST"))).getD [])
            ((getenv env (upperL provider ++ strL "_MODEL")).getD []))) ∧
    (∀ (tier : Nat) (provider : Chars) (env : Env),
        truthyOpt (getenv env (upperL provider ++ strL "_API_KEY")) = false →
        truthyOpt (pyOr (getenv env (upperL provider ++ strL "_BASE_URL"))
          (getenv env (upperL provider ++ strL "_HOST"))) = false →
        ∃ msg, initTierConfig tier provider env = .error msg ∧
          containsL (upperL provider ++ strL "_API_KEY") msg = true ∧
          containsL (upperL provider ++ strL "_BASE_URL") msg = true ∧
          containsL (upperL provider ++ strL "_HOST") msg = true) ∧
    (∀ (provider : Chars) (env : Env) (probe : TagsOutcome),
        truthyOpt (getenv env (upperL provider ++ strL "_API_KEY")) = true →
        ∃ m c, initTier1Config provider env probe =
          .ok (.apiBased ((getenv env (upperL provider ++ strL "_API_KEY")).getD []) m c)) ∧
    (∀ (provider : Chars) (env : Env) (probe : TagsOutcome),
        truthyOpt (getenv env (upperL provider ++ strL "_API_KEY")) = false →
        truthyOpt (pyOr (getenv env (upperL provider ++ strL "_BASE_URL"))
          (getenv env (upperL provider ++ strL "_HOST"))) = true →
        truthyOpt (getenv env (upperL provider ++ strL "_MODEL")) = true →
        initTier1Config provider env probe =
          Except.map T1Cfg.localService
            (testLocalConnection
              ⟨(pyOr (getenv env (upperL provider ++ strL "_BASE_URL"))
                  (getenv env (upperL provider ++ strL "_HOST"))).getD [],
               .str ((getenv env (upperL provider ++ strL "_MODEL")).getD [])⟩ probe)) ∧
    (∀ (provider : Chars) (env : Env) (probe : TagsOutcome),
        truthyOpt (getenv env (upperL provider ++ strL "_API_KEY")) = false →
        truthyOpt (pyOr (getenv env (upperL provider ++ strL "_BASE_URL"))
          (getenv env (upperL provider ++ strL "_HOST"))) = false →
        ∃ msg, initTier1Config provider env probe = .error msg ∧
          containsL (upperL provider ++ strL "_API_KEY") msg = true ∧
          containsL (upperL provider ++ strL "_BASE_URL") msg = true ∧
          containsL (upperL provider ++ strL "_HOST") msg = true) := by
  refine ⟨?_, ?_, ?_, ?_, ?_, ?_⟩
  · intro tier provider env h
    refine ⟨if truthyOpt (getenv env (upperL provider ++ strL "_MODEL")) then
        (getenv env (upperL provider ++ strL "_MODEL")).getD []
      else provider ++ strL "-default-model",
      if containsL (strL "gemini") (lowerL provider) then some ClientKind.generative
      else none, ?_⟩
    simp only [initTierConfig, h, if_true]
  · intro tier provider env h1 h2 h3
    simp only [initTierConfig, h1, h2, h3]
    rfl
  · intro tier provider env h1 h2
    refine ⟨noConfigMsg provider, ?_, noConfigMsg_has_api provider,
      noConfigMsg_has_base provider, noConfigMsg_has_host provider⟩
    simp only [initTierConfig, h1, h2]
    rfl
  · intro provider env probe h
    refine ⟨if truthyOpt (getenv env (upperL provider ++ strL "_MODEL")) then
        (getenv env (upperL provider ++ strL "_MODEL")).getD []
      else provider ++ strL "-default",
      if containsL (strL "gemini") (lowerL provider) then some ClientKind.generative
      else none, ?_⟩
    simp only [initTier1Config, h, if_true]
  · intro provider env probe h1 h2 h3
    simp only [initTier1Config, h1, h2, h3]
    cases testLocalConnection
        ⟨(pyOr (getenv env (upperL provider ++ strL "_BASE_URL"))
            (getenv env (upperL provider ++ strL "_HOST"))).getD [],
         .str ((getenv env (upperL provider ++ strL "_MODEL")).getD [])⟩ probe <;>
      simp [Except.map]
  · intro provider env probe h1 h2
    refine ⟨noConfigMsg provider, ?_, noConfigMsg_has_api provider,
      noConfigMsg_has_base provider, noConfigMsg_has_host provider⟩
    simp only [initTier1Config, h1, h2]
    rfl

/-- C7 witness: a gemini key classifies as ApiBased; an ollama base URL with
model classifies as LocalService; an unconfigured provider fails with a
message naming `FOO_API_KEY`, `FOO_BASE_URL` and `FOO_HOST`. -/
theorem claim7_witness :
    (∃ m c, initTierConfig 1 (strL "gemini")
        [(strL "GEMINI_API_KEY", strL "sk-1")] =
        .ok (.apiBased ((getenv [(strL "GEMINI_API_KEY", strL "sk-1")]
          (upperL (strL "gemini") ++ strL "_API_KEY")).getD []) m c)) ∧
    initTierConfig 2 (strL "ollama") envC1 =
      .ok (.localService
        ((pyOr (getenv envC1 (upperL (strL "ollama") ++ strL "_BASE_URL"))
          (getenv envC1 (upperL (strL "ollama") ++ strL "_HOST"))).getD [])
        ((getenv envC1 (upperL (strL "ollama") ++ strL "_MODEL")).getD [])) ∧
    (∃ msg, initTierConfig 1 (strL "foo") [] = .error msg ∧
      containsL (upperL (strL "foo") ++ strL "_API_KEY") msg = true ∧
      containsL (upperL (strL "foo") ++ strL "_BASE_URL") msg = true ∧
      containsL (upperL (strL "foo") ++ strL "_HOST") msg = true) :=
  ⟨claim7_resolver_classification.1 1 (strL "gemini") _ (by decide),
   claim7_resolver_classification.2.1 2 (strL "ollama") envC1
     (by decide) (by decide) (by decide),
   claim7_resolver_classification.2.2.1 1 (strL "foo") [] (by decide) (by decide)⟩

/-- C8 witness: with the configured model advertised, the test returns the
descriptor unchanged. -/
theorem claim8_witness :
    descC8.base_url = descC8.base_url ∧
    (descC8.model = descC8.model ∨
      ∃ names, probeNames tagsHasLlama = some names ∧
        pyMem descC8.model names = false ∧ names.head? = some descC8.model) :=
  claim8_descriptor_after_test descC8 descC8 tagsHasLlama rfl

/-- The signature step with candidate name `Jane Doe`, contact email
`jane@x.com` and no LinkedIn URL, unfolded to its written shape. -/
theorem ppsJane (letter : Chars) :
    postProcessSignature letter (strL "Jane Doe") (strL "jane@x.com") [] =
      pyStripL (collapseSp (collapseNl
        ((pyStripL (stripSignatures letter) ++ strL "\n\nthanks,\n\n" ++
            strL "Jane Doe") ++ strL "\n" ++ joinNl [strL "jane@x.com"]))) := rfl

/-- Reassociation: appending the closing, the name and the contact line is
appending `sigTailJane`. -/
theorem sigTail_assoc (x : Chars) :
    (x ++ strL "\n\nthanks,\n\n" ++ strL "Jane Doe") ++ strL "\n" ++
      joinNl [strL "jane@x.com"] = x ++ sigTailJane := by
  simp only [List.append_assoc]
  rw [show strL "\n\nthanks,\n\n" ++ (strL "Jane Doe" ++ (strL "\n" ++
    joinNl [strL "jane@x.com"])) = sigTailJane from by decide]

/-- C9 counterexample: a closing variant at the very start of the letter is
not preceded by a newline, so the removal pattern (which begins with one)
leaves it in place, and the processed letter contains two closings. -/
theorem claim9_counterexample_leading_variant :
    postProcessSignature (strL "Sincerely,\nJohn Smith") (strL "Jane Doe")
        (strL "jane@x.com") [] =
      strL "Sincerely,\nJohn Smith\n\nthanks,\n\nJane Doe\njane@x.com" ∧
    sigOccurrences
      (strL "Sincerely,\nJohn Smith\n\nthanks,\n\nJane Doe\njane@x.com") = 2 :=
  ⟨by decide, by decide⟩

/-- C9 (amended): on a letter body that contains no closing variant
preceded by a newline (matched blocks elsewhere are stripped, but a variant
at position 0 survives, since every removal pattern starts with a newline),
is non-empty, has no leading or trailing whitespace, and is fixed by the
newline- and space-collapsing steps, the signature step appends exactly one
canonical closing block; the result carries exactly one closing occurrence;
the step is idempotent on its own output; and a trailing signature block is
stripped before the canonical one is appended. -/
theorem claim9_signature_step (b : Chars)
    (hc1 : containsCI (strL "thanks,") b = false)
    (hc2 : containsCI (strL "best regards,") b = false)
    (hc3 : containsCI (strL "sincerely,") b = false)
    (h4 : b ≠ [])
    (h5 : b.dropWhile isWs = b)
    (h6 : b.reverse.dropWhile isWs = b.reverse)
    (h7 : collapseNl b = b)
    (h8 : collapseSp b = b) :
    postProcessSignature b (strL "Jane Doe") (strL "jane@x.com") [] =
      b ++ sigTailJane ∧
    sigOccurrences (b ++ sigTailJane) = 1 ∧
    postProcessSignature (b ++ sigTailJane) (strL "Jane Doe")
        (strL "jane@x.com") [] = b ++ sigTailJane ∧
    postProcessSignature (b ++ oldSigBlock) (strL "Jane Doe")
        (strL "jane@x.com") [] = b ++ sigTailJane := by
  have hlast : ∀ c, b.reverse.head? = some c → isWs c = false := by
    intro c hc
    have h6' := h6
    cases hbr : b.reverse with
    | nil => rw [hbr] at hc; exact absurd hc (by simp)
    | cons c0 rest =>
        rw [hbr] at hc h6'
        have hc0 : c0 = c := by simpa using hc
        subst hc0
        exact dropWhile_fix_head h6'
  have hqt : stripSigPass (strL "thanks,") b = b :=
    goStrip_id (matchAt_false_of_contains hc1)
  have hqb : stripSigPass (strL "best regards,") b = b :=
    goStrip_id (matchAt_false_of_contains hc2)
  have hqs : stripSigPass (strL "sincerely,") b = b :=
    goStrip_id (matchAt_false_of_contains hc3)
  have hsigs0 : stripSignatures b = b := by
    unfold stripSignatures; rw [hqt, hqb, hqs]
  have ha1 : stripSigPass (strL "thanks,") (b ++ sigTailJane) =
      b ++ ['\n'] := by
    have h := goStrip_append (a := b) (t := sigTailJane)
      (noMatch_append hc1 (by decide) (by decide) (Or.inr (by decide)))
    rw [show goStrip (strL "thanks,") 0 sigTailJane = ['\n'] from by decide] at h
    exact h
  have hb1 : stripSigPass (strL "best regards,") (b ++ ['\n']) =
      b ++ ['\n'] := by
    have h := goStrip_append (a := b) (t := ['\n'])
      (noMatch_append hc2 (by decide) (by decide) (Or.inr (by decide)))
    rw [show goStrip (strL "best regards,") 0 ['\n'] = ['\n'] from by decide] at h
    exact h
  have hs1 : stripSigPass (strL "sincerely,") (b ++ ['\n']) =
      b ++ ['\n'] := by
    have h := goStrip_append (a := b) (t := ['\n'])
      (noMatch_append hc3 (by decide) (by decide) (Or.inr (by decide)))
    rw [show goStrip (strL "sincerely,") 0 ['\n'] = ['\n'] from by decide] at h
    exact h
  have hs2 : stripSignatures (b ++ sigTailJane) = b ++ ['\n'] := by
    unfold stripSignatures; rw [ha1, hb1, hs1]
  have ha1o : stripSigPass (strL "thanks,") (b ++ oldSigBlock) =
      b ++ oldSigBlock := by
    have h := goStrip_append (a := b) (t := oldSigBlock)
      (noMatch_append hc1 (by decide) (by decide) (Or.inr (by decide)))
    rw [show goStrip (strL "thanks,") 0 oldSigBlock = oldSigBlock from by decide] at h
    exact h
  have hb1o : stripSigPass (strL "best regards,") (b ++ oldSigBlock) =
      b ++ ['\n'] := by
    have h := goStrip_append (a := b) (t := oldSigBlock)
      (noMatch_append hc2 (by decide) (by decide) (Or.inr (by decide)))
    rw [show goStrip (strL "best regards,") 0 oldSigBlock = ['\n'] from by decide] at h
    exact h
  have hs3 : stripSignatures (b ++ oldSigBlock) = b ++ ['\n'] := by
    unfold stripSignatures; rw [ha1o, hb1o, hs1]
  have hnl : collapseNl (b ++ sigTailJane) = b ++ sigTailJane := by
    rw [collapseNl_append (nlNoFire_append h7 hlast (by decide))]
    rw [show collapseNl sigTailJane = sigTailJane from by decide]
  have hsp : collapseSp (b ++ sigTailJane) = b ++ sigTailJane := by
    rw [collapseSp_append (spNoFire_append h8 (by decide) (by decide))]
    rw [show collapseSp sigTailJane = sigTailJane from by decide]
  have hps2 : pyStripL (b ++ sigTailJane) = b ++ sigTailJane :=
    pyStrip_append_fix h4 h5 (by decide) (by decide)
  have hassem : pyStripL (collapseSp (collapseNl (b ++ sigTailJane))) =
      b ++ sigTailJane := by
    rw [hnl, hsp, hps2]
  have hstr0 : pyStripL b = b := pyStrip_fix h5 h6
  have hpn : pyStripL (b ++ ['\n']) = b := pyStrip_append_nl h4 h5 h6
  refine ⟨?_, ?_, ?_, ?_⟩
  · rw [ppsJane b, hsigs0, hstr0, sigTail_assoc b, hassem]
  · have ht1 : countOccCI (strL "thanks,") (b ++ sigTailJane) =
        countOccCI (strL "thanks,") b +
          countOccCI (strL "thanks,") sigTailJane :=
      countOccCI_append (by decide) (by decide) (Or.inr (by decide))
    have ht2 : countOccCI (strL "best regards,") (b ++ sigTailJane) =
        countOccCI (strL "best regards,") b +
          countOccCI (strL "best regards,") sigTailJane :=
      countOccCI_append (by decide) (by decide) (Or.inr (by decide))
    have ht3 : countOccCI (strL "sincerely,") (b ++ sigTailJane) =
        countOccCI (strL "sincerely,") b +
          countOccCI (strL "sincerely,") sigTailJane :=
      countOccCI_append (by decide) (by decide) (Or.inr (by decide))
    have hz1 : countOccCI (strL "thanks,") b = 0 := countOccBy_zero hc1
    have hz2 : countOccCI (strL "best regards,") b = 0 := countOccBy_zero hc2
    have hz3 : countOccCI (strL "sincerely,") b = 0 := countOccBy_zero hc3
    unfold sigOccurrences
    rw [ht1, ht2, ht3, hz1, hz2, hz3]
    decide
  · rw [ppsJane (b ++ sigTailJane), hs2, hpn, sigTail_assoc b, hassem]
  · rw [ppsJane (b ++ oldSigBlock), hs3, hpn, sigTail_assoc b, hassem]

/-- C9 witness: the concrete clean body `bodyJane` satisfies every
hypothesis, gains exactly the canonical closing, and reprocessing both the
output and the output with an old trailing signature block yields the same
single-closing letter. -/
theorem claim9_witness :
    containsCI (strL "thanks,") bodyJane = false ∧
    (postProcessSignature bodyJane (strL "Jane Doe") (strL "jane@x.com") [] =
        bodyJane ++ sigTailJane ∧
      sigOccurrences (bodyJane ++ sigTailJane) = 1 ∧
      postProcessSignature (bodyJane ++ sigTailJane) (strL "Jane Doe")
          (strL "jane@x.com") [] = bodyJane ++ sigTailJane ∧
      postProcessSignature (bodyJane ++ oldSigBlock) (strL "Jane Doe")
          (strL "jane@x.com") [] = bodyJane ++ sigTailJane) :=
  ⟨by decide, claim9_signature_step bodyJane (by decide) (by decide)
    (by decide) (by decide) (by decide) (by decide) (by decide) (by decide)⟩

end JobMatch
